import Mathlib

/-!
# Verification of the crypto-tracker transaction ledger core

Shallow embedding of the transaction ledger and lot-accounting engine of the
`crypto-tracker` repository, together with theorems settling the frozen claims
about it.

Numbers are embedded as rationals (`ℚ`).  Transactions, assets and portfolios
follow the TypeScript interfaces in `types.ts`; only the fields the ledger
logic reads are included.  Randomly generated ids, timestamps and the
asynchronous price/FX collaborators are passed in as explicit parameters, so
every embedded operation is a pure function of its inputs, exactly as the
handlers are pure functions of their inputs plus those ambient values.
-/

namespace CryptoTracker

/-- The six transaction types of the ledger (`types.ts`). -/
inductive TxType
  | BUY
  | SELL
  | DEPOSIT
  | WITHDRAWAL
  | TRANSFER
  | INCOME
deriving DecidableEq, Repr

/-- An exchange-rate snapshot (`Record<Currency, number>` in the source),
embedded as an association list so equality stays decidable. -/
abbrev Rates := List (String × ℚ)

/-- A single ledger event (`Transaction` in `types.ts`).  Optional linkage
fields default to `none`, matching absent optional fields in TypeScript.
Dates are embedded as integers ordered like `new Date(s).getTime()`. -/
structure Transaction where
  id : String
  type : TxType
  quantity : ℚ
  pricePerCoin : ℚ
  date : Int
  totalCost : ℚ
  tag : String := "DCA"
  proceedsCurrency : Option String := none
  sourceTicker : Option String := none
  sourceQuantity : Option ℚ := none
  linkedBuySellTransactionId : Option String := none
  transactionPairId : Option String := none
  destinationPortfolioId : Option String := none
  transferredFrom : Option String := none
  depositSource : Option String := none
  withdrawalDestination : Option String := none
  purchaseCurrency : Option String := none
  exchangeRateAtPurchase : Option Rates := none
  proceeds : Option ℚ := none
  destinationTicker : Option String := none
  destinationQuantity : Option ℚ := none
  linkedTransactionId : Option String := none
deriving DecidableEq, Repr

/-- One FIFO-matched realized gain/loss record (`ClosedPosition` in
`types.ts`); only the fields the ledger core reads are embedded. -/
structure ClosedPosition where
  id : String
  ticker : String
  buyTransactionId : String
  sellTransactionId : String
  entryDate : Int
  entryPrice : ℚ
  entryQuantity : ℚ
  entryCostBasis : ℚ
  exitQuantity : ℚ
  exitProceeds : ℚ
deriving DecidableEq, Repr

/-- A position in one ticker within one portfolio (`Asset` in `types.ts`). -/
structure Asset where
  id : String
  ticker : String
  name : String := ""
  quantity : ℚ
  currentPrice : ℚ := 0
  transactions : List Transaction
  avgBuyPrice : ℚ
  totalCostBasis : ℚ
  assetType : String := "CRYPTO"
  currency : String := "USD"
deriving DecidableEq, Repr

/-- A portfolio owning assets and closed positions (`Portfolio` in
`types.ts`). -/
structure Portfolio where
  id : String
  name : String := ""
  assets : List Asset
  closedPositions : List ClosedPosition
deriving DecidableEq, Repr

/-- `tx.type === 'BUY' || tx.type === 'DEPOSIT' || tx.type === 'INCOME'` -/
def isAcquisition (tx : Transaction) : Bool :=
  tx.type == .BUY || tx.type == .DEPOSIT || tx.type == .INCOME

/-- `tx.type === 'SELL' || tx.type === 'WITHDRAWAL' || tx.type === 'TRANSFER'` -/
def isDisposal (tx : Transaction) : Bool :=
  tx.type == .SELL || tx.type == .WITHDRAWAL || tx.type == .TRANSFER

/-- `txs.reduce((sum, tx) => sum + tx.quantity, 0)` -/
def sumQuantity (txs : List Transaction) : ℚ :=
  (txs.map Transaction.quantity).sum

/-- `txs.reduce((sum, tx) => sum + tx.totalCost, 0)` -/
def sumTotalCost (txs : List Transaction) : ℚ :=
  (txs.map Transaction.totalCost).sum

/-- The aggregate triple derived from a transaction list. -/
structure Position where
  quantity : ℚ
  totalCostBasis : ℚ
  avgBuyPrice : ℚ
deriving DecidableEq, Repr

/-- `recalculateAssetPosition` from
`src/services/portfolioMigration.ts` (transaction reversal service): partition
into acquisitions and disposals, sum each side, subtract, and guard the
average price against non-positive quantity. -/
def recalculateAssetPosition (transactions : List Transaction) : Position :=
  let acquisitions := transactions.filter isAcquisition
  let disposals := transactions.filter isDisposal
  let totalAcquired := sumQuantity acquisitions
  let totalDisposed := sumQuantity disposals
  let quantity := totalAcquired - totalDisposed
  let totalCostAcquired := sumTotalCost acquisitions
  let totalCostDisposed := sumTotalCost disposals
  let totalCostBasis := totalCostAcquired - totalCostDisposed
  { quantity := quantity
    totalCostBasis := totalCostBasis
    avgBuyPrice := if 0 < quantity then totalCostBasis / quantity else 0 }

/-- ASCII embedding of JavaScript `Char` uppercasing (tickers and currency
codes in this code base are ASCII). -/
def charUpper (c : Char) : Char :=
  if 'a' ≤ c ∧ c ≤ 'z' then Char.ofNat (c.toNat - 32) else c

/-- JavaScript `s.toUpperCase()`. -/
def jsToUpper (s : String) : String :=
  String.mk (s.data.map charUpper)

/-- JavaScript `s.split(' ')[0]`: the prefix of `s` up to the first space. -/
def headToken (s : String) : String :=
  String.mk (s.data.takeWhile (fun c => c != ' '))

/-- `ticker.toUpperCase().split(' ')[0]` — the base symbol used throughout the
chain and proceeds matching. -/
def tickerBase (s : String) : String :=
  headToken (jsToUpper s)

/-- JavaScript `s.includes(c)` for a single character. -/
def stringContainsChar (s : String) (c : Char) : Bool :=
  s.data.contains c

/-- Stable insertion of a transaction into a date-sorted list (the embedding
of JavaScript's stable `Array.prototype.sort` by ascending date). -/
def insertByDate (x : Transaction) : List Transaction → List Transaction
  | [] => [x]
  | y :: ys => if x.date ≤ y.date then x :: y :: ys else y :: insertByDate x ys

/-- `[...].sort((a, b) => new Date(a.date).getTime() - new Date(b.date).getTime())`
as a stable sort by ascending date. -/
def sortByDateAsc : List Transaction → List Transaction
  | [] => []
  | x :: xs => insertByDate x (sortByDateAsc xs)

/-- The FIFO lot-consumption loop of `handleWithdrawal`
(`useAssetHandlers.ts` 850-856), identical to the loop in
`handlePortfolioTransfer` (1334-1352): walk the lots, consume
`min(remaining, lot.quantity)` from each, prorate the lot's cost
proportionally, and stop once the quantity is matched. -/
def fifoConsume (remaining : ℚ) : List Transaction → ℚ
  | [] => 0
  | tx :: rest =>
    if remaining ≤ 0 then 0
    else
      let qtyFromThisTx := min remaining tx.quantity
      let costFromThisTx := (qtyFromThisTx / tx.quantity) * tx.totalCost
      costFromThisTx + fifoConsume (remaining - qtyFromThisTx) rest

/-- `rates[c]` lookup on the association-list embedding of a rate record. -/
def ratesLookup (rates : Rates) (c : String) : Option ℚ :=
  (rates.find? (fun p => p.fst == c)).map Prod.snd

/-- JavaScript truthiness of `rates[c]`: the key is present with a non-zero
rate. -/
def rateTruthy (rates : Rates) (c : String) : Bool :=
  match ratesLookup rates c with
  | some r => r != 0
  | none => false

/-- `convertCurrencySync` from the currency service: identity on equal
currencies, fall back to the unconverted amount when a rate is missing,
otherwise go through USD. -/
def convertCurrencySync (amount : ℚ) (fromCurrency toCurrency : String)
    (rates : Rates) : ℚ :=
  if fromCurrency == toCurrency then amount
  else if !(rateTruthy rates fromCurrency) || !(rateTruthy rates toCurrency) then amount
  else amount / ((ratesLookup rates fromCurrency).getD 0) * ((ratesLookup rates toCurrency).getD 0)

/-- The FIFO loop of `handleBuyWithValidation` (`useAssetHandlers.ts`
999-1018): like `fifoConsume` but converting each lot's prorated cost to USD
via the lot's FX snapshot when the lot was purchased in another currency. -/
def fifoConsumeUSD (remaining : ℚ) : List Transaction → ℚ
  | [] => 0
  | tx :: rest =>
    if remaining ≤ 0 then 0
    else
      let qtyFromThisTx := min remaining tx.quantity
      let costFromThisTxOriginal := (qtyFromThisTx / tx.quantity) * tx.totalCost
      let costFromThisTxUSD :=
        match tx.exchangeRateAtPurchase, tx.purchaseCurrency with
        | some rates, some pc =>
          if pc != "USD" then convertCurrencySync costFromThisTxOriginal pc "USD" rates
          else costFromThisTxOriginal
        | _, _ => costFromThisTxOriginal
      costFromThisTxUSD + fifoConsumeUSD (remaining - qtyFromThisTx) rest

/-- Modelled from the spec: the closed-position side of the FIFO resolver.
`calculateRealizedPnL` lives in `src/services/portfolioService.ts`, which is
not under `src/`; §4.2 of the spec describes it: walk the date-sorted
acquisition lots, consume `min(remaining-to-dispose, lot.quantity)`, prorate
that lot's cost proportionally, emit one ClosedPosition per lot touched (even
partial lots), and stop once the disposed quantity is fully matched. -/
def fifoClosedPositions (sellTxId ticker : String) (exitPricePerUnit remaining : ℚ) :
    List Transaction → List ClosedPosition
  | [] => []
  | tx :: rest =>
    if remaining ≤ 0 then []
    else
      let consumedQty := min remaining tx.quantity
      let entryCost := (consumedQty / tx.quantity) * tx.totalCost
      { id := sellTxId ++ "-" ++ tx.id
        ticker := ticker
        buyTransactionId := tx.id
        sellTransactionId := sellTxId
        entryDate := tx.date
        entryPrice := tx.pricePerCoin
        entryQuantity := consumedQty
        entryCostBasis := entryCost
        exitQuantity := consumedQty
        exitProceeds := consumedQty * exitPricePerUnit } ::
        fifoClosedPositions sellTxId ticker exitPricePerUnit (remaining - consumedQty) rest

/-- `handleWithdrawal` from `useAssetHandlers.ts` (834-925) as a pure state
transformation on the active portfolio.  The freshly generated transaction id
is passed in explicitly.  The handler inlines the same
acquisitions/disposals recomputation as `recalculateAssetPosition`. -/
def handleWithdrawal (portfolio : Portfolio) (asset : Asset) (quantity : ℚ)
    (date : Int) (withdrawalDestination : String) (tag : Option String)
    (freshId : String) : Portfolio :=
  let sortedAcquisitionTxs := sortByDateAsc (asset.transactions.filter isAcquisition)
  let costBasisWithdrawn := fifoConsume quantity sortedAcquisitionTxs
  let avgPriceWithdrawn := if 0 < quantity then costBasisWithdrawn / quantity else 0
  let withdrawalTx : Transaction :=
    { id := freshId
      type := .WITHDRAWAL
      quantity := quantity
      pricePerCoin := avgPriceWithdrawn
      date := date
      totalCost := costBasisWithdrawn
      tag := tag.getD "Profit-Taking"
      withdrawalDestination := some withdrawalDestination }
  let updatedTxs := asset.transactions ++ [withdrawalTx]
  let pos := recalculateAssetPosition updatedTxs
  if pos.quantity == 0 then
    { portfolio with assets := portfolio.assets.filter (fun a => a.id != asset.id) }
  else
    { portfolio with assets := portfolio.assets.map (fun a =>
        if a.id == asset.id then
          { a with
              quantity := pos.quantity
              transactions := updatedTxs
              totalCostBasis := pos.totalCostBasis
              avgBuyPrice := if 0 < pos.quantity then pos.totalCostBasis / pos.quantity else 0 }
        else a) }

/-- `calculateWithdrawalReversal` from the transaction reversal service
(321-345): drop the withdrawal transaction, recompute, and remove the asset
entirely when the recomputed quantity is exactly zero. -/
def calculateWithdrawalReversal (portfolio : Portfolio) (assetId txId : String) :
    List Asset :=
  match portfolio.assets.find? (fun a => a.id == assetId) with
  | none => portfolio.assets
  | some assetToUpdate =>
    let updatedTxs := assetToUpdate.transactions.filter (fun tx => tx.id != txId)
    let pos := recalculateAssetPosition updatedTxs
    if pos.quantity == 0 then
      portfolio.assets.filter (fun a => a.id != assetId)
    else
      portfolio.assets.map (fun a =>
        if a.id == assetId then
          { a with
              transactions := updatedTxs
              quantity := pos.quantity
              totalCostBasis := pos.totalCostBasis
              avgBuyPrice := pos.avgBuyPrice }
        else a)

/-- The edit payload accepted by `handleEditTransaction`. -/
structure TxUpdates where
  quantity : ℚ
  pricePerCoin : ℚ
  date : Int
  tag : String
deriving DecidableEq, Repr

/-- `handleEditTransaction` from `useBenchmarks.ts` (601-647, transaction
modifiers hook): rewrite the matching transaction (re-deriving `totalCost`
as `quantity × pricePerCoin`), then set the asset's aggregates to
`newQty = Σ quantity` and `newCost = Σ totalCost` over ALL transactions of
the asset — note that this sum runs over disposals as well, with no
acquisition/disposal split, and that `avgBuyPrice = newCost / newQty` is
unguarded. -/
def handleEditTransaction (portfolio : Portfolio) (assetId txId : String)
    (updates : TxUpdates) : Portfolio :=
  { portfolio with assets := portfolio.assets.map (fun asset =>
      if asset.id != assetId then asset
      else
        let updatedTransactions := asset.transactions.map (fun tx =>
          if tx.id != txId then tx
          else
            { tx with
                quantity := updates.quantity
                pricePerCoin := updates.pricePerCoin
                date := updates.date
                totalCost := updates.quantity * updates.pricePerCoin
                tag := updates.tag })
        let newQty := sumQuantity updatedTransactions
        let newCost := sumTotalCost updatedTransactions
        { asset with
            transactions := updatedTransactions
            quantity := newQty
            totalCostBasis := newCost
            avgBuyPrice := newCost / newQty }) }

/-- `calculateLinkedBuySellReversal` from the transaction reversal service
(493-532): drop every closed position of the pair's SELL, drop the BUY from
the destination asset (removing that asset only when its recomputed quantity
is zero AND its remaining transaction list is empty), drop the SELL from the
source asset, recomputing each touched asset's aggregates. -/
def calculateLinkedBuySellReversal (portfolio : Portfolio)
    (buyAssetId buyTxId sellAssetId sellTxId : String) :
    List Asset × List ClosedPosition :=
  let updatedClosedPositions := portfolio.closedPositions.filter
    (fun cp => cp.sellTransactionId != sellTxId)
  let updatedAssets := portfolio.assets.filterMap (fun a =>
    if a.id != buyAssetId then some a
    else
      let updatedTxs := a.transactions.filter (fun tx => tx.id != buyTxId)
      let pos := recalculateAssetPosition updatedTxs
      if pos.quantity == 0 && updatedTxs.isEmpty then none
      else some { a with
                    transactions := updatedTxs
                    quantity := pos.quantity
                    totalCostBasis := pos.totalCostBasis
                    avgBuyPrice := pos.avgBuyPrice })
  let updatedAssets2 := updatedAssets.map (fun a =>
    if a.id != sellAssetId then a
    else
      let updatedTxs := a.transactions.filter (fun tx => tx.id != sellTxId)
      let pos := recalculateAssetPosition updatedTxs
      { a with
          transactions := updatedTxs
          quantity := pos.quantity
          totalCostBasis := pos.totalCostBasis
          avgBuyPrice := pos.avgBuyPrice })
  (updatedAssets2, updatedClosedPositions)

/-- `calculateSimpleTransactionRemoval` from the transaction reversal
service (716-732): drop the transaction and recompute; the asset is removed
only when its transaction list becomes empty. -/
def calculateSimpleTransactionRemoval (portfolio : Portfolio)
    (assetId txId : String) : List Asset :=
  portfolio.assets.filterMap (fun a =>
    if a.id != assetId then some a
    else
      let updatedTxs := a.transactions.filter (fun tx => tx.id != txId)
      if updatedTxs.isEmpty then none
      else
        let pos := recalculateAssetPosition updatedTxs
        some { a with
                 transactions := updatedTxs
                 quantity := pos.quantity
                 totalCostBasis := pos.totalCostBasis
                 avgBuyPrice := pos.avgBuyPrice })

/-- JavaScript truthiness of an optional string field: absent or empty is
falsy. -/
def optStringTruthy : Option String → Bool
  | some s => s != ""
  | none => false

/-- One link of a swap chain (`TransactionChainLink` in
`transactionChainService.ts`); the source stores the whole asset and
transaction, of which the chain logic and messages read the ticker, the
proceeds currency and the transaction's id/quantity/date. -/
structure TransactionChainLink where
  ticker : String
  soldFor : String
  txId : String
  txQuantity : ℚ
  txDate : Int
deriving DecidableEq, Repr

/-- `findTransactionChain` from `transactionChainService.ts` (38-67), with
the shared mutable visited set threaded explicitly and a fuel argument for
termination.  The JavaScript recursion terminates because every recursive
call enters a ticker not yet in the visited set; `chainFuel` below
over-approximates the number of distinct tickers that can ever be visited,
so with that fuel the embedding never hits the fuel cutoff. -/
def findTransactionChainAux (assets : List Asset) :
    Nat → String → List String → List TransactionChainLink × List String
  | 0, _, visited => ([], visited)
  | fuel + 1, ticker, visited =>
    if visited.contains ticker then ([], visited)
    else
      let visited1 := visited ++ [ticker]
      assets.foldl
        (fun acc asset =>
          let assetTicker := tickerBase asset.ticker
          if assetTicker == jsToUpper ticker then
            (asset.transactions.filter (fun tx => tx.type == .SELL)).foldl
              (fun acc2 tx =>
                if optStringTruthy tx.proceedsCurrency then
                  let pc := tx.proceedsCurrency.getD ""
                  let proceedsTicker := tickerBase pc
                  let link : TransactionChainLink :=
                    { ticker := asset.ticker
                      soldFor := pc
                      txId := tx.id
                      txQuantity := tx.quantity
                      txDate := tx.date }
                  let sub := findTransactionChainAux assets fuel proceedsTicker acc2.2
                  (acc2.1 ++ [link] ++ sub.1, sub.2)
                else acc2)
              acc
          else acc)
        (([] : List TransactionChainLink), visited1)

/-- Fuel bound for the chain traversal: one more than the number of tickers
plus the number of transactions, an upper bound on the distinct tickers the
traversal can visit. -/
def chainFuel (assets : List Asset) : Nat :=
  1 + assets.length + (assets.map (fun a => a.transactions.length)).sum

/-- The top-level `findTransactionChain(ticker, assets)` call with a fresh
visited set. -/
def findTransactionChain (ticker : String) (assets : List Asset) :
    List TransactionChainLink :=
  (findTransactionChainAux assets (chainFuel assets) ticker []).1

/-- The decision taken by `handleRemoveAsset` (`useAssetHandlers.ts`
241-317) before any confirmation dialog: it scans for SELL transactions
whose proceeds are the asset being deleted; only when at least one exists
does it consult `findTransactionChain`, rejecting the deletion (with the
chain steps listed most-recent-hop first) when the chain is non-empty. -/
inductive RemoveAssetOutcome
  | missing
  | rejectedChain (steps : List (String × String))
  | reverseSales
  | simpleDelete
deriving DecidableEq, Repr

/-- Pure model of `handleRemoveAsset`'s control flow up to its first
user-facing prompt. -/
def handleRemoveAssetDecision (assets : List Asset) (assetId : String) :
    RemoveAssetOutcome :=
  match assets.find? (fun a => a.id == assetId) with
  | none => .missing
  | some assetToDelete =>
    let sellTransactionsForThisAsset := assets.flatMap (fun asset =>
      asset.transactions.filterMap (fun tx =>
        if tx.type == .SELL && optStringTruthy tx.proceedsCurrency then
          let proceedsTicker := tickerBase (tx.proceedsCurrency.getD "")
          let assetTicker := tickerBase assetToDelete.ticker
          if proceedsTicker == assetTicker then some (asset.id, tx.id) else none
        else none))
    if sellTransactionsForThisAsset.isEmpty then .simpleDelete
    else
      let assetTickerBase := tickerBase assetToDelete.ticker
      let fullChain := findTransactionChain assetTickerBase assets
      if fullChain.isEmpty then .reverseSales
      else .rejectedChain (fullChain.reverse.map (fun c => (c.ticker, headToken c.soldFor)))

/-- `calculateLegacyBuyReversal` from the transaction reversal service
(537-625): remove the BUY from the destination asset (dropping the asset
when its quantity and transaction list are both empty), then restore the
spent source asset by synthesizing a DEPOSIT transaction for
`sourceQuantity` units valued at the deleted BUY's `totalCost`, creating the
source asset fresh if it no longer exists.  The freshly generated ids are
passed explicitly. -/
def calculateLegacyBuyReversal (portfolio : Portfolio) (assetId txId : String)
    (txToDelete : Transaction) (assetTicker : String)
    (restoreTxId newAssetId newAssetTxId : String) : List Asset :=
  let sourceTicker := jsToUpper (txToDelete.sourceTicker.getD "")
  let sourceQuantity := txToDelete.sourceQuantity.getD 0
  let sourceValue := txToDelete.totalCost
  let updatedAssets := portfolio.assets.filterMap (fun a =>
    if a.id != assetId then some a
    else
      let updatedTxs := a.transactions.filter (fun tx => tx.id != txId)
      let pos := recalculateAssetPosition updatedTxs
      if pos.quantity == 0 && updatedTxs.isEmpty then none
      else some { a with
                    transactions := updatedTxs
                    quantity := pos.quantity
                    totalCostBasis := pos.totalCostBasis
                    avgBuyPrice := pos.avgBuyPrice })
  match updatedAssets.find? (fun a => jsToUpper a.ticker == sourceTicker) with
  | some _ =>
    let restorationTx : Transaction :=
      { id := restoreTxId
        type := .DEPOSIT
        quantity := sourceQuantity
        pricePerCoin := sourceValue / sourceQuantity
        date := txToDelete.date
        totalCost := sourceValue
        tag := if txToDelete.tag == "" then "DCA" else txToDelete.tag
        depositSource := some ("Restored from deleted BUY of " ++ assetTicker) }
    updatedAssets.map (fun a =>
      if jsToUpper a.ticker != sourceTicker then a
      else
        let updatedTxs := a.transactions ++ [restorationTx]
        let pos := recalculateAssetPosition updatedTxs
        { a with
            transactions := updatedTxs
            quantity := pos.quantity
            totalCostBasis := pos.totalCostBasis
            avgBuyPrice := pos.avgBuyPrice })
  | none =>
    let newSourceAsset : Asset :=
      { id := newAssetId
        ticker := sourceTicker
        name := sourceTicker
        quantity := sourceQuantity
        currentPrice := sourceValue / sourceQuantity
        transactions := [
          { id := newAssetTxId
            type := .DEPOSIT
            quantity := sourceQuantity
            pricePerCoin := sourceValue / sourceQuantity
            date := txToDelete.date
            totalCost := sourceValue
            tag := if txToDelete.tag == "" then "DCA" else txToDelete.tag
            depositSource := some ("Restored from deleted BUY of " ++ assetTicker) } ]
        avgBuyPrice := sourceValue / sourceQuantity
        totalCostBasis := sourceValue
        assetType := "CASH"
        currency := sourceTicker }
    updatedAssets ++ [newSourceAsset]

/-- The FIFO copy-building loop of `handlePortfolioTransfer`
(`useAssetHandlers.ts` 1334-1352): walk the date-sorted acquisition lots,
clone each touched lot (prorated) as a transfer copy tagged with the source
portfolio id, and accumulate the transferred cost basis.  `mkId i` supplies
the fresh id of the i-th copy. -/
def fifoTransferCopies (mkId : Nat → String) (activePortfolioId : String)
    (tag : Option String) : Nat → ℚ → List Transaction → List Transaction × ℚ
  | _, _, [] => ([], 0)
  | i, remaining, tx :: rest =>
    if remaining ≤ 0 then ([], 0)
    else
      let qtyFromThisTx := min remaining tx.quantity
      let costFromThisTx := (qtyFromThisTx / tx.quantity) * tx.totalCost
      let copy : Transaction :=
        { tx with
            id := mkId i
            quantity := qtyFromThisTx
            totalCost := costFromThisTx
            transferredFrom := some activePortfolioId
            tag := tag.getD tx.tag }
      let res := fifoTransferCopies mkId activePortfolioId tag (i + 1)
        (remaining - qtyFromThisTx) rest
      (copy :: res.1, costFromThisTx + res.2)

/-- `handlePortfolioTransfer` from `useAssetHandlers.ts` (1310-1494) as a
pure transformation of the pair (active portfolio, destination portfolio):
select acquisition lots FIFO, clone them into the destination (new or
existing asset, matched by exact ticker), record a single TRANSFER disposal
in the source asset, and recompute both sides; the source asset is removed
when its recomputed quantity is exactly zero. -/
def handlePortfolioTransfer (activePortfolio destinationPortfolio : Portfolio)
    (asset : Asset) (quantity : ℚ) (date : Int) (tag : Option String)
    (transferTxId : String) (mkId : Nat → String) (newDestAssetId : String) :
    Portfolio × Portfolio :=
  let sortedAcquisitionTxs := sortByDateAsc (asset.transactions.filter isAcquisition)
  let copiesAndCost := fifoTransferCopies mkId activePortfolio.id tag 0 quantity
    sortedAcquisitionTxs
  let transferredTxCopies := copiesAndCost.1
  let totalCostBasisTransferred := copiesAndCost.2
  let avgPriceTransferred := if 0 < quantity then totalCostBasisTransferred / quantity else 0
  let transferTx : Transaction :=
    { id := transferTxId
      type := .TRANSFER
      quantity := quantity
      pricePerCoin := avgPriceTransferred
      date := date
      totalCost := totalCostBasisTransferred
      tag := tag.getD "Strategic"
      destinationPortfolioId := some destinationPortfolio.id
      linkedTransactionId := some transferTxId }
  let updatedSourceTxs := asset.transactions ++ [transferTx]
  let pos := recalculateAssetPosition updatedSourceTxs
  let newActive :=
    if pos.quantity == 0 then
      { activePortfolio with
          assets := activePortfolio.assets.filter (fun a => a.id != asset.id) }
    else
      { activePortfolio with
          assets := activePortfolio.assets.map (fun a =>
            if a.id == asset.id then
              { a with
                  quantity := pos.quantity
                  transactions := updatedSourceTxs
                  totalCostBasis := pos.totalCostBasis
                  avgBuyPrice := if 0 < pos.quantity then pos.totalCostBasis / pos.quantity else 0 }
            else a) }
  let newDest :=
    match destinationPortfolio.assets.find? (fun a => a.ticker == asset.ticker) with
    | some existingAsset =>
      let updatedDestTxs := existingAsset.transactions ++ transferredTxCopies
      let dpos := recalculateAssetPosition updatedDestTxs
      { destinationPortfolio with
          assets := destinationPortfolio.assets.map (fun a =>
            if a.id == existingAsset.id then
              { a with
                  quantity := dpos.quantity
                  transactions := updatedDestTxs
                  totalCostBasis := dpos.totalCostBasis
                  avgBuyPrice := if 0 < dpos.quantity then dpos.totalCostBasis / dpos.quantity else 0 }
            else a) }
    | none =>
      let newAsset : Asset :=
        { id := newDestAssetId
          ticker := asset.ticker
          name := asset.name
          quantity := quantity
          currentPrice := asset.currentPrice
          transactions := transferredTxCopies
          avgBuyPrice := totalCostBasisTransferred / quantity
          totalCostBasis := totalCostBasisTransferred
          assetType := asset.assetType
          currency := asset.currency }
      { destinationPortfolio with assets := destinationPortfolio.assets ++ [newAsset] }
  (newActive, newDest)

/-- `handleBuyWithValidation` from `useAssetHandlers.ts` (930-1303) as a
pure state transformation of the active portfolio (the swap apply path).
The collaborators that are not under `src/` (`getHistoricalPrice`,
`isCashAsset`, `detectAssetNativeCurrency` of
`src/services/portfolioService.ts`) are passed as function parameters; the
freshly generated ids, the fetched historical FX snapshot and the ambient
rate table are explicit arguments.  The closed positions produced by the
missing `calculateRealizedPnL` are modelled from the spec via
`fifoClosedPositions`.  The asynchronous price refresh of a newly created
destination asset touches only price/name metadata and is omitted. -/
def handleBuyWithValidation
    (getHistoricalPrice : Asset → Int → ℚ) (isCashAsset : String → Bool)
    (detectAssetNativeCurrency : String → String)
    (historicalRates : Option Rates) (exchangeRates : Rates)
    (portfolio : Portfolio)
    (sourceTicker : String) (sourceQuantity : ℚ)
    (destinationTicker : String) (destinationQuantity : ℚ)
    (date : Int) (tag : Option String)
    (transactionPairId buyTxId sellTxId newDestAssetId : String) : Portfolio :=
  let assets := portfolio.assets
  let sourceCurrency := detectAssetNativeCurrency sourceTicker
  let destCurrency := detectAssetNativeCurrency destinationTicker
  let sourceAssetOpt := assets.find? (fun a => jsToUpper a.ticker == jsToUpper sourceTicker)
  let sourceMarketPriceOnDate :=
    match sourceAssetOpt with
    | some sa => getHistoricalPrice sa date
    | none => 1
  let costBasisSpentUSD :=
    match sourceAssetOpt with
    | some _ => sourceQuantity * sourceMarketPriceOnDate
    | none => sourceQuantity
  let costBasisFIFOinUSD :=
    match sourceAssetOpt with
    | some sa => fifoConsumeUSD sourceQuantity (sortByDateAsc (sa.transactions.filter isAcquisition))
    | none => 0
  let closedPositionsFromSell :=
    match sourceAssetOpt with
    | some sa =>
      if !(isCashAsset sourceTicker) then
        fifoClosedPositions sellTxId sa.ticker sourceMarketPriceOnDate sourceQuantity
          (sortByDateAsc (sa.transactions.filter isAcquisition))
      else []
    | none => []
  let isDestinationCash := isCashAsset destinationTicker
  let isDestinationCrypto := !isDestinationCash && !(stringContainsChar destinationTicker '.')
  let sourceValueInUSD :=
    match sourceAssetOpt with
    | some _ =>
      if sourceCurrency != "USD" then
        convertCurrencySync (sourceQuantity * sourceMarketPriceOnDate) sourceCurrency "USD"
          (historicalRates.getD exchangeRates)
      else costBasisSpentUSD
    | none => costBasisSpentUSD
  let buyTxPricePerCoin :=
    if isDestinationCash then 1
    else if isDestinationCrypto then
      if 0 < destinationQuantity then sourceValueInUSD / destinationQuantity else 0
    else
      if 0 < destinationQuantity then sourceQuantity / destinationQuantity else 0
  let buyTxTotalCost :=
    if isDestinationCash then destinationQuantity
    else if isDestinationCrypto then sourceValueInUSD
    else sourceQuantity
  let buyTxPurchaseCurrency :=
    if isDestinationCash then
      if jsToUpper destinationTicker == "USDT" || jsToUpper destinationTicker == "USDC"
          || jsToUpper destinationTicker == "DAI" then "USD" else destCurrency
    else if isDestinationCrypto then "USD"
    else sourceCurrency
  let buyTx : Transaction :=
    { id := buyTxId
      type := .BUY
      quantity := destinationQuantity
      pricePerCoin := buyTxPricePerCoin
      date := date
      totalCost := buyTxTotalCost
      tag := tag.getD "DCA"
      purchaseCurrency := some buyTxPurchaseCurrency
      exchangeRateAtPurchase := historicalRates
      sourceTicker := some sourceTicker
      sourceQuantity := some sourceQuantity
      linkedBuySellTransactionId := some sellTxId
      transactionPairId := some transactionPairId }
  let portfolio1 : Portfolio :=
    match sourceAssetOpt with
    | none => portfolio
    | some sa =>
      let isCash := isCashAsset sourceTicker
      let sellTx : Transaction :=
        { id := sellTxId
          type := .SELL
          quantity := sourceQuantity
          pricePerCoin := if isCash then 1 else sourceMarketPriceOnDate
          date := date
          totalCost := if isCash then sourceQuantity * 1 else costBasisFIFOinUSD
          proceeds := some (sourceQuantity * sourceMarketPriceOnDate)
          proceedsCurrency := some destCurrency
          tag := tag.getD "DCA"
          destinationTicker := some destinationTicker
          destinationQuantity := some destinationQuantity
          linkedBuySellTransactionId := some buyTxId
          transactionPairId := some transactionPairId }
      let updatedSourceTxs := sa.transactions ++ [sellTx]
      let pos := recalculateAssetPosition updatedSourceTxs
      if pos.quantity == 0 then
        { portfolio with
            assets := portfolio.assets.filter (fun a => a.id != sa.id)
            closedPositions := portfolio.closedPositions ++ closedPositionsFromSell }
      else
        { portfolio with
            assets := portfolio.assets.map (fun a =>
              if a.id == sa.id then
                { a with
                    quantity := pos.quantity
                    transactions := updatedSourceTxs
                    totalCostBasis := pos.totalCostBasis
                    avgBuyPrice := if 0 < pos.quantity then pos.totalCostBasis / pos.quantity else 0 }
              else a)
            closedPositions := portfolio.closedPositions ++ closedPositionsFromSell }
  match assets.find? (fun a => jsToUpper a.ticker == jsToUpper destinationTicker) with
  | some existingDest =>
    { portfolio1 with
        assets := portfolio1.assets.map (fun (a : Asset) =>
          if a.id == existingDest.id then
            let updatedDestTxs := a.transactions ++ [buyTx]
            let dpos := recalculateAssetPosition updatedDestTxs
            { a with
                quantity := dpos.quantity
                transactions := updatedDestTxs
                totalCostBasis := dpos.totalCostBasis
                avgBuyPrice := if 0 < dpos.quantity then dpos.totalCostBasis / dpos.quantity else 0 }
          else a) }
  | none =>
    let newDestAsset : Asset :=
      { id := newDestAssetId
        ticker := destinationTicker
        name := ""
        quantity := destinationQuantity
        currentPrice := if isDestinationCash then 1 else 0
        transactions := [buyTx]
        avgBuyPrice := buyTx.pricePerCoin
        totalCostBasis := buyTx.totalCost
        assetType := if isDestinationCash then "CASH" else ""
        currency := buyTxPurchaseCurrency }
    { portfolio1 with assets := portfolio1.assets ++ [newDestAsset] }

/-- Total quantity stored across a portfolio's assets. -/
def qtyTotal (p : Portfolio) : ℚ :=
  (p.assets.map Asset.quantity).sum

/-- Total cost basis stored across a portfolio's assets. -/
def costTotal (p : Portfolio) : ℚ :=
  (p.assets.map Asset.totalCostBasis).sum

/-- All transactions of a portfolio, in asset order. -/
def txsOf (p : Portfolio) : List Transaction :=
  p.assets.flatMap Asset.transactions

/-- The pair property a swap must establish: the new SELL and BUY both
exist, share the pair id, point at each other, and are the only two
transactions carrying that pair id (exactly one SELL and one BUY). -/
def swapCreatesLinkedPair (P' : Portfolio) (pairId buyTxId sellTxId : String) : Prop :=
  ∃ s b : Transaction,
    s ∈ txsOf P' ∧ b ∈ txsOf P'
    ∧ s.id = sellTxId ∧ b.id = buyTxId
    ∧ s.type = TxType.SELL ∧ b.type = TxType.BUY
    ∧ s.transactionPairId = some pairId ∧ b.transactionPairId = some pairId
    ∧ s.linkedBuySellTransactionId = some buyTxId
    ∧ b.linkedBuySellTransactionId = some sellTxId
    ∧ (txsOf P').countP
        (fun t => t.type == TxType.SELL && t.transactionPairId == some pairId) = 1
    ∧ (txsOf P').countP
        (fun t => t.type == TxType.BUY && t.transactionPairId == some pairId) = 1
    ∧ ∀ t ∈ txsOf P', t.transactionPairId = some pairId → t = s ∨ t = b

/-- What deleting either member of a linked pair must achieve: both
transactions gone from every asset, every ClosedPosition of the pair's SELL
removed, and the two touched assets' aggregates recomputed. -/
def linkedReversalRemovesPair (Q : Portfolio) (bAid bTid sAid sTid : String) : Prop :=
  (∀ a ∈ (calculateLinkedBuySellReversal Q bAid bTid sAid sTid).1,
    ∀ t ∈ a.transactions, t.id ≠ bTid ∧ t.id ≠ sTid)
  ∧ (∀ cp ∈ (calculateLinkedBuySellReversal Q bAid bTid sAid sTid).2,
      cp.sellTransactionId ≠ sTid)
  ∧ (∀ a ∈ (calculateLinkedBuySellReversal Q bAid bTid sAid sTid).1,
      a.id = bAid ∨ a.id = sAid →
        a.quantity = (recalculateAssetPosition a.transactions).quantity
        ∧ a.totalCostBasis = (recalculateAssetPosition a.transactions).totalCostBasis
        ∧ a.avgBuyPrice = (recalculateAssetPosition a.transactions).avgBuyPrice)

/-- A template transaction used to build concrete examples compactly. -/
def baseTx : Transaction :=
  { id := "t0", type := .BUY, quantity := 0, pricePerCoin := 0, date := 0, totalCost := 0 }

/-- A template asset used as the default of `List.headD` in concrete
statements. -/
def baseAsset : Asset :=
  { id := "", ticker := "", quantity := 0, transactions := [], avgBuyPrice := 0,
    totalCostBasis := 0 }

/-- C1 scenario: a consistent BTC position with one BUY and one SELL. -/
def editBuyTx : Transaction :=
  { baseTx with id := "buy1", quantity := 10, pricePerCoin := 100, totalCost := 1000 }

def editSellTx : Transaction :=
  { baseTx with
      id := "sell1"
      type := .SELL
      quantity := 4
      pricePerCoin := 100
      totalCost := 400 }

def editAsset : Asset :=
  { id := "a1", ticker := "BTC", quantity := 6, transactions := [editBuyTx, editSellTx],
    avgBuyPrice := 100, totalCostBasis := 600 }

def editPortfolio : Portfolio :=
  { id := "p1", assets := [editAsset], closedPositions := [] }

/-- C1 scenario: edit `buy1` keeping its exact previous values. -/
def editResult : Portfolio :=
  handleEditTransaction editPortfolio "a1" "buy1"
    { quantity := 10, pricePerCoin := 100, date := 0, tag := "DCA" }

/-- C3 scenario: the spec's two acquisition lots, listed out of date order. -/
def lotOne : Transaction :=
  { baseTx with
      id := "lot1"
      quantity := 10
      pricePerCoin := 100
      date := 1
      totalCost := 1000 }

def lotTwo : Transaction :=
  { baseTx with
      id := "lot2"
      quantity := 10
      pricePerCoin := 200
      date := 5
      totalCost := 2000 }

/-- C7 scenario: a BTC position holding 10 units from one lot. -/
def wdAsset : Asset :=
  { id := "a1", ticker := "BTC", quantity := 10,
    transactions := [{ baseTx with
      id := "l1"
      quantity := 10
      pricePerCoin := 100
      totalCost := 1000 }],
    avgBuyPrice := 100, totalCostBasis := 1000 }

def wdPortfolio : Portfolio :=
  { id := "p1", assets := [wdAsset], closedPositions := [] }

/-- C7 scenario: withdraw 15 units while holding 10. -/
def wdOverdrawResult : Portfolio :=
  handleWithdrawal wdPortfolio wdAsset 15 5 "cold wallet" none "w1"

/-- C9 scenario: an ETH position whose quantity falls to exactly zero (with
transactions remaining) once the linked BUY `b1` is removed. -/
def c9EthAsset : Asset :=
  { id := "eth", ticker := "ETH", quantity := 2,
    transactions :=
      [{ baseTx with
      id := "b1"
      quantity := 2
      pricePerCoin := 100
      totalCost := 200
      linkedBuySellTransactionId := some "s1"
      transactionPairId := some "pairX" },
       { baseTx with id := "b2", quantity := 3, pricePerCoin := 100, totalCost := 300 },
       { baseTx with id := "w1", type := .WITHDRAWAL, quantity := 3, totalCost := 300 }],
    avgBuyPrice := 100, totalCostBasis := 200 }

def c9BtcAsset : Asset :=
  { id := "btc", ticker := "BTC", quantity := 1,
    transactions :=
      [{ baseTx with id := "bb", quantity := 2, pricePerCoin := 100, totalCost := 200 },
       { baseTx with
      id := "s1"
      type := .SELL
      quantity := 1
      pricePerCoin := 100
      totalCost := 100
      linkedBuySellTransactionId := some "b1"
      transactionPairId := some "pairX" }],
    avgBuyPrice := 100, totalCostBasis := 100 }

def c9Portfolio : Portfolio :=
  { id := "p1", assets := [c9EthAsset, c9BtcAsset], closedPositions := [] }

/-- C9 scenario: reverse the linked pair (`b1` on ETH, `s1` on BTC). -/
def c9Result : List Asset × List ClosedPosition :=
  calculateLinkedBuySellReversal c9Portfolio "eth" "b1" "btc" "s1"

/-- C8 scenario: BTC was sold for ETH (`tx1`) and ETH was later sold for SOL
(`tx2`); BTC itself is not the proceeds of any SELL. -/
def c8BtcAsset : Asset :=
  { id := "btc-id", ticker := "BTC", quantity := 1,
    transactions :=
      [{ baseTx with
      id := "btcbuy"
      quantity := 2
      pricePerCoin := 100
      totalCost := 200
      date := 1 },
       { baseTx with
      id := "tx1"
      type := .SELL
      quantity := 1
      pricePerCoin := 100
      totalCost := 100
      date := 10
      proceedsCurrency := some "ETH" }],
    avgBuyPrice := 100, totalCostBasis := 100 }

def c8EthAsset : Asset :=
  { id := "eth-id", ticker := "ETH", quantity := 10,
    transactions :=
      [{ baseTx with
      id := "ethbuy"
      quantity := 30
      pricePerCoin := 10
      totalCost := 300
      date := 10 },
       { baseTx with
      id := "tx2"
      type := .SELL
      quantity := 20
      pricePerCoin := 12
      totalCost := 240
      date := 20
      proceedsCurrency := some "SOL" }],
    avgBuyPrice := 30, totalCostBasis := 60 }

def c8SolAsset : Asset :=
  { id := "sol-id", ticker := "SOL", quantity := 3,
    transactions :=
      [{ baseTx with
      id := "solbuy"
      quantity := 5
      pricePerCoin := 48
      totalCost := 240
      date := 20 },
       { baseTx with
      id := "tx3"
      type := .SELL
      quantity := 2
      pricePerCoin := 50
      totalCost := 96
      date := 30
      proceedsCurrency := some "ADA" }],
    avgBuyPrice := 48, totalCostBasis := 144 }

def c8AdaAsset : Asset :=
  { id := "ada-id", ticker := "ADA", quantity := 100,
    transactions :=
      [{ baseTx with
      id := "adabuy"
      quantity := 100
      pricePerCoin := 1
      totalCost := 100
      date := 30 }],
    avgBuyPrice := 1, totalCostBasis := 100 }

def c8Assets : List Asset :=
  [c8BtcAsset, c8EthAsset, c8SolAsset, c8AdaAsset]

/-- C6 scenario: a BTC position with one lot and one earlier SELL, so the
stored cost basis (700) exceeds the FIFO cost of the remaining 5 units
(500); then transfer all 5 remaining units away. -/
def c6SrcAsset : Asset :=
  { id := "src", ticker := "BTC", quantity := 5,
    transactions :=
      [{ baseTx with
      id := "l1"
      quantity := 10
      pricePerCoin := 100
      totalCost := 1000
      date := 1 },
       { baseTx with
      id := "s1"
      type := .SELL
      quantity := 5
      pricePerCoin := 60
      totalCost := 300
      date := 2 }],
    avgBuyPrice := 140, totalCostBasis := 700 }

def c6SrcPortfolio : Portfolio :=
  { id := "P1", assets := [c6SrcAsset], closedPositions := [] }

def c6DestPortfolio : Portfolio :=
  { id := "P2", assets := [], closedPositions := [] }

/-- C6 scenario: transfer the full remaining 5 units to the empty
portfolio. -/
def c6Result : Portfolio × Portfolio :=
  handlePortfolioTransfer c6SrcPortfolio c6DestPortfolio c6SrcAsset 5 3 none
    "tr1" (fun _ => "copy") "newdest"

/-- Shared oracle instantiations for the concrete swap scenarios: the
market price of the source asset is 500, the only cash ticker is USD, and
every asset's native currency is USD. -/
def fixedPrice : Asset → Int → ℚ := fun _ _ => 500

def usdIsCash : String → Bool := fun t => t == "USD"

def allUSD : String → String := fun _ => "USD"

def usdRates : Rates := [("USD", 1)]

/-- C4 scenario: one BTC bought for 100, then fully spent in a swap for 20
ETH at market price 500. -/
def c4Btc : Asset :=
  { id := "btc", ticker := "BTC", quantity := 1,
    transactions := [{ baseTx with
      id := "l1"
      quantity := 1
      pricePerCoin := 100
      totalCost := 100 }],
    avgBuyPrice := 100, totalCostBasis := 100 }

def c4P0 : Portfolio :=
  { id := "p1", assets := [c4Btc], closedPositions := [] }

def c4P1 : Portfolio :=
  handleBuyWithValidation fixedPrice usdIsCash allUSD none usdRates c4P0
    "BTC" 1 "ETH" 20 5 none "pair1" "b1" "s1" "ethid"

/-- The BUY transaction created by the C4 swap, as the deletion dispatcher
would find it. -/
def c4BuyTx : Transaction :=
  ((txsOf c4P1).find? (fun tx => tx.id == "b1")).getD baseTx

/-- C4 scenario: reverse that BUY through the legacy path. -/
def c4P2assets : List Asset :=
  calculateLegacyBuyReversal c4P1 "ethid" "b1" c4BuyTx "ETH" "r1" "na1" "nt1"

/-- The literal BUY transaction the C4 swap creates (derived by evaluating
`handleBuyWithValidation` on the C4 scenario). -/
def c4SwapBuyTx : Transaction :=
  { id := "b1"
    type := .BUY
    quantity := 20
    pricePerCoin := 25
    date := 5
    totalCost := 500
    tag := "DCA"
    purchaseCurrency := some "USD"
    exchangeRateAtPurchase := none
    sourceTicker := some "BTC"
    sourceQuantity := some 1
    linkedBuySellTransactionId := some "s1"
    transactionPairId := some "pair1" }

/-- The literal destination asset the C4 swap creates. -/
def c4EthAsset : Asset :=
  { id := "ethid"
    ticker := "ETH"
    name := ""
    quantity := 20
    currentPrice := 0
    transactions := [c4SwapBuyTx]
    avgBuyPrice := 25
    totalCostBasis := 500
    assetType := ""
    currency := "USD" }

/-- The literal closed position the C4 swap creates (spec-modelled FIFO
resolver output). -/
def c4CP : ClosedPosition :=
  { id := "s1-l1"
    ticker := "BTC"
    buyTransactionId := "l1"
    sellTransactionId := "s1"
    entryDate := 0
    entryPrice := 100
    entryQuantity := 1
    entryCostBasis := 100
    exitQuantity := 1
    exitProceeds := 500 }

/-- The literal portfolio state after the C4 swap. -/
def c4P1Lit : Portfolio :=
  { id := "p1", name := "", assets := [c4EthAsset], closedPositions := [c4CP] }

/-- C5 scenario: identical full-spend swap (held quantity equals the spent
quantity), so the source asset is removed together with the freshly created
SELL member of the pair. -/
def c5Btc : Asset :=
  { id := "btc5", ticker := "BTC", quantity := 1,
    transactions := [{ baseTx with
      id := "l5"
      quantity := 1
      pricePerCoin := 100
      totalCost := 100 }],
    avgBuyPrice := 100, totalCostBasis := 100 }

def c5P0 : Portfolio :=
  { id := "p5", assets := [c5Btc], closedPositions := [] }

def c5P1 : Portfolio :=
  handleBuyWithValidation fixedPrice usdIsCash allUSD none usdRates c5P0
    "BTC" 1 "ETH" 20 5 none "pair5" "b5" "s5" "ethid5"

/-- The literal BUY transaction the C5 full-spend swap creates. -/
def c5SwapBuyTx : Transaction :=
  { id := "b5"
    type := .BUY
    quantity := 20
    pricePerCoin := 25
    date := 5
    totalCost := 500
    tag := "DCA"
    purchaseCurrency := some "USD"
    exchangeRateAtPurchase := none
    sourceTicker := some "BTC"
    sourceQuantity := some 1
    linkedBuySellTransactionId := some "s5"
    transactionPairId := some "pair5" }

/-- The literal portfolio state after the C5 full-spend swap: the BTC source
asset (and with it the freshly created SELL) is gone; only the ETH BUY and
the closed position remain. -/
def c5P1Lit : Portfolio :=
  { id := "p5"
    name := ""
    assets := [{ id := "ethid5"
                 ticker := "ETH"
                 name := ""
                 quantity := 20
                 currentPrice := 0
                 transactions := [c5SwapBuyTx]
                 avgBuyPrice := 25
                 totalCostBasis := 500
                 assetType := ""
                 currency := "USD" }]
    closedPositions := [{ id := "s5-l5"
                          ticker := "BTC"
                          buyTransactionId := "l5"
                          sellTransactionId := "s5"
                          entryDate := 0
                          entryPrice := 100
                          entryQuantity := 1
                          entryCostBasis := 100
                          exitQuantity := 1
                          exitProceeds := 500 }] }

/-- C5 witness scenario: a partial-spend swap — BTC holds 2 units, only 1 is
spent, so the source asset survives together with the SELL member. -/
def c5WLot : Transaction :=
  { baseTx with id := "lW", quantity := 2, pricePerCoin := 100, totalCost := 200 }

def c5WBtc : Asset :=
  { id := "btcW", ticker := "BTC", quantity := 2, transactions := [c5WLot],
    avgBuyPrice := 100, totalCostBasis := 200 }

def c5WP0 : Portfolio :=
  { id := "pW", assets := [c5WBtc], closedPositions := [] }

/-- C5 witness scenario, existing-destination variant: the portfolio already
holds an ETH asset, so the swap's BUY merges into it instead of creating a
new asset. -/
def c5EEthLot : Transaction :=
  { baseTx with id := "le", quantity := 5, pricePerCoin := 10, totalCost := 50, date := 2 }

def c5EEth : Asset :=
  { id := "ethE", ticker := "ETH", quantity := 5, transactions := [c5EEthLot],
    avgBuyPrice := 10, totalCostBasis := 50 }

def c5EP0 : Portfolio :=
  { id := "pE", assets := [c5WBtc, c5EEth], closedPositions := [] }

/-- C10 witness scenario: one BUY lot, with and without an interleaved
WITHDRAWAL. -/
def lotL : Transaction :=
  { baseTx with id := "L", quantity := 10, totalCost := 1000 }

def wdW : Transaction :=
  { baseTx with id := "W", type := .WITHDRAWAL, quantity := 9, totalCost := 900 }

def assetWithDisposal : Asset :=
  { baseAsset with transactions := [lotL, wdW] }

def assetLotOnly : Asset :=
  { baseAsset with transactions := [lotL] }

/-- C9 witness scenario: an asset whose transactions net to zero once the
withdrawal `zw` is removed, and a single-transaction asset. -/
def z2Asset : Asset :=
  { baseAsset with
      id := "z2"
      transactions := [{ baseTx with id := "zb", quantity := 5, totalCost := 500 },
        { baseTx with id := "zs", type := .SELL, quantity := 5, totalCost := 500 },
        { baseTx with id := "zw", type := .WITHDRAWAL, quantity := 2, totalCost := 200 }] }

def q1Portfolio : Portfolio :=
  { id := "q1", assets := [z2Asset], closedPositions := [] }

def z3Asset : Asset :=
  { baseAsset with
      id := "z3"
      transactions := [{ baseTx with id := "zbuy", quantity := 4, totalCost := 400 }] }

def q2Portfolio : Portfolio :=
  { id := "q2", assets := [z3Asset], closedPositions := [] }

/-- C6 witness scenario: one consistent BTC lot of 10 bought for 1000,
partially transferred (4 units) to an empty destination portfolio. -/
def lotC6W : Transaction :=
  { baseTx with id := "l6W", quantity := 10, pricePerCoin := 100, totalCost := 1000, date := 1 }

def btcC6W : Asset :=
  { baseAsset with
      id := "btc6W"
      ticker := "BTC"
      quantity := 10
      transactions := [lotC6W]
      avgBuyPrice := 100
      totalCostBasis := 1000 }

def c6WActive : Portfolio :=
  { id := "p6A", assets := [btcC6W], closedPositions := [] }

def c6WDest : Portfolio :=
  { id := "p6B", assets := [], closedPositions := [] }

section SumLemmas

theorem sum_map_filter_eq_sum_ite (p : Transaction → Bool) (f : Transaction → ℚ)
    (l : List Transaction) :
    ((l.filter p).map f).sum = (l.map (fun tx => if p tx then f tx else 0)).sum := by
  induction l with
  | nil => rfl
  | cons x xs ih =>
    by_cases h : p x <;> simp [List.filter_cons, h, ih]

theorem sumQuantity_perm {l₁ l₂ : List Transaction} (p : Transaction → Bool)
    (h : l₁.Perm l₂) :
    sumQuantity (l₁.filter p) = sumQuantity (l₂.filter p) :=
  List.Perm.sum_eq (List.Perm.map _ (List.Perm.filter p h))

theorem sumTotalCost_perm {l₁ l₂ : List Transaction} (p : Transaction → Bool)
    (h : l₁.Perm l₂) :
    sumTotalCost (l₁.filter p) = sumTotalCost (l₂.filter p) :=
  List.Perm.sum_eq (List.Perm.map _ (List.Perm.filter p h))

theorem recalculateAssetPosition_perm {l₁ l₂ : List Transaction} (h : l₁.Perm l₂) :
    recalculateAssetPosition l₁ = recalculateAssetPosition l₂ := by
  simp only [recalculateAssetPosition,
    sumQuantity_perm isAcquisition h, sumQuantity_perm isDisposal h,
    sumTotalCost_perm isAcquisition h, sumTotalCost_perm isDisposal h]

theorem isAcquisition_not_isDisposal (tx : Transaction)
    (h : isAcquisition tx = true) : isDisposal tx = false := by
  cases htype : tx.type <;> simp_all [isAcquisition, isDisposal]

theorem sumQuantity_append (l₁ l₂ : List Transaction) :
    sumQuantity (l₁ ++ l₂) = sumQuantity l₁ + sumQuantity l₂ := by
  simp [sumQuantity]

theorem sumTotalCost_append (l₁ l₂ : List Transaction) :
    sumTotalCost (l₁ ++ l₂) = sumTotalCost l₁ + sumTotalCost l₂ := by
  simp [sumTotalCost]

theorem sumQuantity_nonneg (l : List Transaction)
    (h : ∀ tx ∈ l, 0 ≤ tx.quantity) : 0 ≤ sumQuantity l := by
  apply List.sum_nonneg
  intro x hx
  obtain ⟨tx, htx, rfl⟩ := List.mem_map.mp hx
  exact h tx htx

theorem recalculateAssetPosition_quantity (l : List Transaction) :
    (recalculateAssetPosition l).quantity =
      sumQuantity (l.filter isAcquisition) - sumQuantity (l.filter isDisposal) := rfl

theorem recalculateAssetPosition_totalCostBasis (l : List Transaction) :
    (recalculateAssetPosition l).totalCostBasis =
      sumTotalCost (l.filter isAcquisition) - sumTotalCost (l.filter isDisposal) := rfl

theorem recalculateAssetPosition_avgBuyPrice (l : List Transaction) :
    (recalculateAssetPosition l).avgBuyPrice =
      if 0 < (recalculateAssetPosition l).quantity then
        (recalculateAssetPosition l).totalCostBasis / (recalculateAssetPosition l).quantity
      else 0 := rfl

theorem recalculateAssetPosition_append_quantity (l₁ l₂ : List Transaction) :
    (recalculateAssetPosition (l₁ ++ l₂)).quantity =
      (recalculateAssetPosition l₁).quantity + (recalculateAssetPosition l₂).quantity := by
  simp only [recalculateAssetPosition_quantity, List.filter_append, sumQuantity_append]
  ring

theorem recalculateAssetPosition_append_totalCostBasis (l₁ l₂ : List Transaction) :
    (recalculateAssetPosition (l₁ ++ l₂)).totalCostBasis =
      (recalculateAssetPosition l₁).totalCostBasis +
        (recalculateAssetPosition l₂).totalCostBasis := by
  simp only [recalculateAssetPosition_totalCostBasis, List.filter_append, sumTotalCost_append]
  ring

theorem insertByDate_perm (x : Transaction) (l : List Transaction) :
    (insertByDate x l).Perm (x :: l) := by
  induction l with
  | nil => simp [insertByDate]
  | cons y ys ih =>
    simp only [insertByDate]
    by_cases h : x.date ≤ y.date
    · simp [h]
    · simp only [h, ite_false]
      exact (ih.cons y).trans (List.Perm.swap x y ys)

theorem sortByDateAsc_perm (l : List Transaction) : (sortByDateAsc l).Perm l := by
  induction l with
  | nil => simp [sortByDateAsc]
  | cons x xs ih =>
    exact (insertByDate_perm x (sortByDateAsc xs)).trans (ih.cons x)

theorem sumQuantity_sortByDateAsc (l : List Transaction) :
    sumQuantity (sortByDateAsc l) = sumQuantity l :=
  List.Perm.sum_eq (List.Perm.map _ (sortByDateAsc_perm l))

theorem sumTotalCost_sortByDateAsc (l : List Transaction) :
    sumTotalCost (sortByDateAsc l) = sumTotalCost l :=
  List.Perm.sum_eq (List.Perm.map _ (sortByDateAsc_perm l))

theorem mem_sortByDateAsc {tx : Transaction} {l : List Transaction}
    (h : tx ∈ sortByDateAsc l) : tx ∈ l :=
  (sortByDateAsc_perm l).mem_iff.mp h

theorem recalc_all_acquisitions (l : List Transaction)
    (h : ∀ tx ∈ l, isAcquisition tx = true) :
    (recalculateAssetPosition l).quantity = sumQuantity l
    ∧ (recalculateAssetPosition l).totalCostBasis = sumTotalCost l := by
  have hf : l.filter isAcquisition = l := List.filter_eq_self.mpr h
  have hd : l.filter isDisposal = [] := by
    rw [List.filter_eq_nil_iff]
    intro tx htx
    simp [isAcquisition_not_isDisposal tx (h tx htx)]
  refine ⟨?_, ?_⟩ <;>
    simp [recalculateAssetPosition_quantity, recalculateAssetPosition_totalCostBasis,
      hf, hd, sumQuantity, sumTotalCost]

theorem fifoConsume_consumes_all (l : List Transaction) :
    ∀ remaining : ℚ, (∀ tx ∈ l, 0 < tx.quantity) → sumQuantity l ≤ remaining →
      0 ≤ remaining → fifoConsume remaining l = sumTotalCost l := by
  induction l with
  | nil => intro r _ _ _; simp [fifoConsume, sumTotalCost]
  | cons tx rest ih =>
    intro r hpos hle h0
    have htx : 0 < tx.quantity := hpos tx (by simp)
    have hrest : ∀ t ∈ rest, 0 < t.quantity := fun t ht => hpos t (List.mem_cons_of_mem _ ht)
    have hsumrest : 0 ≤ sumQuantity rest :=
      sumQuantity_nonneg rest (fun t ht => le_of_lt (hrest t ht))
    have hsum : tx.quantity + sumQuantity rest ≤ r := by
      simpa [sumQuantity] using hle
    have hrpos : 0 < r := lt_of_lt_of_le (by linarith) hsum
    have hmin : min r tx.quantity = tx.quantity := min_eq_right (by linarith)
    rw [fifoConsume, if_neg (not_le.mpr hrpos)]
    simp only [hmin]
    rw [div_self (ne_of_gt htx), one_mul,
      ih (r - tx.quantity) hrest (by linarith) (by linarith)]
    simp [sumTotalCost]

theorem fifoTransferCopies_sums (mkId : Nat → String) (pid : String)
    (tg : Option String) (l : List Transaction) :
    ∀ (i : Nat) (r : ℚ), (∀ tx ∈ l, 0 < tx.quantity) → 0 ≤ r → r ≤ sumQuantity l →
      sumQuantity (fifoTransferCopies mkId pid tg i r l).1 = r
      ∧ sumTotalCost (fifoTransferCopies mkId pid tg i r l).1 =
          (fifoTransferCopies mkId pid tg i r l).2 := by
  induction l with
  | nil =>
    intro i r _ h0 hle
    have : r = 0 := le_antisymm (by simpa [sumQuantity] using hle) h0
    simp [fifoTransferCopies, sumQuantity, sumTotalCost, this]
  | cons tx rest ih =>
    intro i r hpos h0 hle
    have htx : 0 < tx.quantity := hpos tx (by simp)
    have hrest : ∀ t ∈ rest, 0 < t.quantity := fun t ht => hpos t (List.mem_cons_of_mem _ ht)
    have hsumrest : 0 ≤ sumQuantity rest :=
      sumQuantity_nonneg rest (fun t ht => le_of_lt (hrest t ht))
    by_cases hr : r ≤ 0
    · have : r = 0 := le_antisymm hr h0
      simp [fifoTransferCopies, hr, sumQuantity, sumTotalCost, this]
    · have hq1 : min r tx.quantity ≤ r := min_le_left _ _
      have hq0 : 0 ≤ min r tx.quantity := le_min (le_of_not_le hr) (le_of_lt htx)
      have hsum : sumQuantity (tx :: rest) = tx.quantity + sumQuantity rest := by
        simp [sumQuantity]
      have hrec := ih (i + 1) (r - min r tx.quantity) hrest (by linarith)
        (by
          rcases le_total r tx.quantity with hcase | hcase
          · rw [min_eq_left hcase]; linarith
          · rw [min_eq_right hcase]; rw [hsum] at hle; linarith)
      rw [fifoTransferCopies, if_neg hr]
      refine ⟨?_, ?_⟩
      · simp only [sumQuantity, List.map_cons, List.sum_cons]
        have := hrec.1
        simp only [sumQuantity] at this
        rw [this]
        ring
      · simp only [sumTotalCost, List.map_cons, List.sum_cons]
        have := hrec.2
        simp only [sumTotalCost] at this
        rw [this]

theorem fifoTransferCopies_all_acquisitions (mkId : Nat → String) (pid : String)
    (tg : Option String) (l : List Transaction) :
    ∀ (i : Nat) (r : ℚ), (∀ tx ∈ l, isAcquisition tx = true) →
      ∀ c ∈ (fifoTransferCopies mkId pid tg i r l).1, isAcquisition c = true := by
  induction l with
  | nil => intro i r _ c hc; simp [fifoTransferCopies] at hc
  | cons tx rest ih =>
    intro i r hacq c hc
    by_cases hr : r ≤ 0
    · simp [fifoTransferCopies, hr] at hc
    · rw [fifoTransferCopies, if_neg hr] at hc
      rcases List.mem_cons.mp hc with hc | hc
      · subst hc
        have := hacq tx (by simp)
        simpa [isAcquisition] using this
      · exact ih (i + 1) (r - min r tx.quantity)
          (fun t ht => hacq t (List.mem_cons_of_mem _ ht)) c hc

theorem countP_flatMap {α β : Type} (l : List α) (g : α → List β) (p : β → Bool) :
    (l.flatMap g).countP p = (l.map (fun a => (g a).countP p)).sum := by
  induction l with
  | nil => simp
  | cons a as ih => simp [List.flatMap_cons, List.countP_append, ih]

theorem map_eq_self_of_fixed {α : Type} (l : List α) (f : α → α)
    (h : ∀ a ∈ l, f a = a) : l.map f = l := by
  induction l with
  | nil => rfl
  | cons a as ih =>
    simp only [List.map_cons, h a (by simp), ih (fun b hb => h b (List.mem_cons_of_mem _ hb))]

end SumLemmas

/-- C2: `recalculateAssetPosition(transactions)` returns quantity equal to the
sum of `quantity` over BUY/DEPOSIT/INCOME transactions minus the sum over
SELL/WITHDRAWAL/TRANSFER transactions, `totalCostBasis` equal to the same
difference over `totalCost`, and `avgBuyPrice = totalCostBasis / quantity`
when the quantity is positive and `0` otherwise; being a Lean function it is
pure, and its result is invariant under permutation of the input list. -/
theorem recalculateAssetPosition_correct (l l' : List Transaction) (hperm : l.Perm l') :
    (recalculateAssetPosition l).quantity =
        (l.map (fun tx => if isAcquisition tx then tx.quantity else 0)).sum -
        (l.map (fun tx => if isDisposal tx then tx.quantity else 0)).sum
    ∧ (recalculateAssetPosition l).totalCostBasis =
        (l.map (fun tx => if isAcquisition tx then tx.totalCost else 0)).sum -
        (l.map (fun tx => if isDisposal tx then tx.totalCost else 0)).sum
    ∧ (0 < (recalculateAssetPosition l).quantity →
        (recalculateAssetPosition l).avgBuyPrice =
          (recalculateAssetPosition l).totalCostBasis / (recalculateAssetPosition l).quantity)
    ∧ ((recalculateAssetPosition l).quantity ≤ 0 →
        (recalculateAssetPosition l).avgBuyPrice = 0)
    ∧ recalculateAssetPosition l = recalculateAssetPosition l' := by
  refine ⟨?_, ?_, ?_, ?_, recalculateAssetPosition_perm hperm⟩
  · simp [recalculateAssetPosition, sumQuantity, sum_map_filter_eq_sum_ite]
  · simp [recalculateAssetPosition, sumTotalCost, sum_map_filter_eq_sum_ite]
  · intro hq
    simp only [recalculateAssetPosition] at hq ⊢
    simp only [if_pos hq]
  · intro hq
    simp only [recalculateAssetPosition] at hq ⊢
    rw [if_neg (by exact not_lt.mpr hq)]

/-- Witness for C2 at a concrete permuted pair of transaction lists. -/
theorem recalculateAssetPosition_correct_witness :
    ([{ baseTx with id := "a", quantity := 10, totalCost := 1000 },
      { baseTx with id := "b", type := .SELL, quantity := 4, totalCost := 400 }].Perm
     [{ baseTx with id := "b", type := .SELL, quantity := 4, totalCost := 400 },
      { baseTx with id := "a", quantity := 10, totalCost := 1000 }])
    ∧ (recalculateAssetPosition
        [{ baseTx with id := "a", quantity := 10, totalCost := 1000 },
         { baseTx with id := "b", type := .SELL, quantity := 4, totalCost := 400 }]).quantity = 6 := by
  constructor
  · exact List.Perm.swap _ _ _
  · have h := recalculateAssetPosition_correct
      [{ baseTx with id := "a", quantity := 10, totalCost := 1000 },
       { baseTx with id := "b", type := .SELL, quantity := 4, totalCost := 400 }]
      [{ baseTx with id := "b", type := .SELL, quantity := 4, totalCost := 400 },
       { baseTx with id := "a", quantity := 10, totalCost := 1000 }]
      (List.Perm.swap _ _ _)
    rw [h.1]
    simp [baseTx, isAcquisition, isDisposal]
    norm_num

/-- C1 (code bug): the aggregate invariant requires every mutation path to
store exactly `recalculateAssetPosition` of the asset's transaction list,
but `handleEditTransaction` recomputes the quantity as the sum of `quantity`
over ALL transactions — counting SELL/WITHDRAWAL/TRANSFER disposals
positively.  Editing a BUY of a consistent asset holding one BUY (10 units)
and one SELL (4 units), without changing any value, stores quantity 14 while
`recalculateAssetPosition` yields 6. -/
theorem handleEditTransaction_breaks_aggregate_invariant :
    editResult.assets.length = 1
    ∧ (editResult.assets.headD baseAsset).quantity = 14
    ∧ (recalculateAssetPosition (editResult.assets.headD baseAsset).transactions).quantity = 6
    ∧ (editResult.assets.headD baseAsset).quantity ≠
        (recalculateAssetPosition (editResult.assets.headD baseAsset).transactions).quantity := by
  simp +decide only [editResult, handleEditTransaction, editPortfolio, editAsset, editBuyTx,
    editSellTx, baseTx, baseAsset, sumQuantity, sumTotalCost, recalculateAssetPosition,
    isAcquisition, isDisposal, List.map_cons, List.map_nil, List.filter_cons,
    List.filter_nil, List.headD, List.length_cons, List.length_nil, List.sum_cons,
    List.sum_nil, bne_iff_ne, ne_eq, ite_true, ite_false]
  norm_num

/-- C3: the FIFO resolver sorts the acquisition lots ascending by date,
consumes `min(remaining, lot.quantity)` per lot prorating the lot's cost,
and stops when matched.  On the spec's concrete input — lot1 of 10 units at
total cost 1000 on day 1 and lot2 of 10 units at total cost 2000 on day 5,
disposing 15 units — it consumes all of lot1 plus half of lot2 for a total
cost basis of exactly 2000, and the (spec-modelled) closed-position emitter
produces exactly two ClosedPositions with entry quantities 10 and 5 and
prorated entry costs 1000 and 1000. -/
theorem fifo_resolver_spec_example :
    sortByDateAsc [lotTwo, lotOne] = [lotOne, lotTwo]
    ∧ fifoConsume 15 (sortByDateAsc [lotTwo, lotOne]) = 2000
    ∧ (fifoClosedPositions "s1" "BTC" 200 15 (sortByDateAsc [lotTwo, lotOne])).map
        ClosedPosition.entryQuantity = [10, 5]
    ∧ (fifoClosedPositions "s1" "BTC" 200 15 (sortByDateAsc [lotTwo, lotOne])).map
        ClosedPosition.entryCostBasis = [1000, 1000]
    ∧ (fifoClosedPositions "s1" "BTC" 200 15 (sortByDateAsc [lotTwo, lotOne])).length = 2 := by
  norm_num [sortByDateAsc, insertByDate, fifoConsume, fifoClosedPositions, min_def,
    lotOne, lotTwo, baseTx]

/-- C7 counterexample: `handleWithdrawal` contains no balance validation.
Withdrawing 15 units of a position holding 10 mutates the state and leaves
the asset stored with quantity −5 — the operation is neither rejected before
mutation nor does it avoid negative quantity. -/
theorem handleWithdrawal_overdraw_not_rejected :
    wdOverdrawResult.assets.length = 1
    ∧ (wdOverdrawResult.assets.headD baseAsset).quantity = -5
    ∧ ¬(0 ≤ (wdOverdrawResult.assets.headD baseAsset).quantity)
    ∧ wdOverdrawResult ≠ wdPortfolio := by
  simp +decide only [wdOverdrawResult, handleWithdrawal, wdPortfolio, wdAsset, baseTx,
    baseAsset, sortByDateAsc, insertByDate, fifoConsume, isAcquisition, isDisposal,
    recalculateAssetPosition, sumQuantity, sumTotalCost, List.filter_cons,
    List.filter_nil, List.map_cons, List.map_nil, List.sum_cons, List.sum_nil,
    List.headD, List.length_cons, List.length_nil, List.cons_append, List.nil_append,
    beq_iff_eq, bne_iff_ne, ne_eq, min_def, ite_true, ite_false, Portfolio.mk.injEq,
    Asset.mk.injEq]
  norm_num

/-- C9 counterexample: reversing a linked BUY/SELL pair whose BUY removal
leaves the destination asset at recomputed quantity exactly zero — but with
other transactions remaining — keeps the asset as a zero-quantity row
(`calculateLinkedBuySellReversal` removes it only when the remaining
transaction list is also empty). -/
theorem linked_reversal_keeps_zero_quantity_asset :
    c9Result.1.map (fun a => (a.id, a.quantity)) = [("eth", 0), ("btc", 2)] := by
  simp +decide [c9Result, calculateLinkedBuySellReversal, c9Portfolio, c9EthAsset,
    c9BtcAsset, baseTx, recalculateAssetPosition, sumQuantity, sumTotalCost,
    isAcquisition, isDisposal, List.isEmpty]

/-- C6 counterexample: transferring the entire remaining quantity of an
asset that has a prior disposal removes the source asset row, dropping its
whole stored cost basis (700), while the destination gains only the
FIFO-selected cost of the transferred units (500) — total cost basis across
the two portfolios is not conserved. -/
theorem transfer_full_disposal_loses_cost_basis :
    costTotal c6Result.1 + costTotal c6Result.2 = 500
    ∧ costTotal c6SrcPortfolio + costTotal c6DestPortfolio = 700
    ∧ ((500 : ℚ) ≠ 700) := by
  simp +decide only [c6Result, handlePortfolioTransfer, c6SrcPortfolio, c6DestPortfolio,
    c6SrcAsset, baseTx, costTotal, fifoTransferCopies, sortByDateAsc, insertByDate,
    recalculateAssetPosition, sumQuantity, sumTotalCost, isAcquisition, isDisposal,
    List.filter_cons, List.filter_nil, List.map_cons, List.map_nil, List.sum_cons,
    List.sum_nil, List.cons_append, List.nil_append, List.find?, beq_iff_eq,
    bne_iff_ne, ne_eq, min_def, ite_true, ite_false]
  norm_num

/-- C8 counterexample: BTC starts the non-empty chain BTC→ETH→SOL→ADA, yet
because BTC is not itself the proceeds of any SELL transaction,
`handleRemoveAsset` never consults the chain and proceeds to the plain
confirm-and-delete path instead of rejecting. -/
theorem removeAsset_skips_chain_check_for_non_proceeds_asset :
    findTransactionChain (tickerBase c8BtcAsset.ticker) c8Assets ≠ []
    ∧ handleRemoveAssetDecision c8Assets "btc-id" = .simpleDelete := by
  decide

/-- C8 amended: `findTransactionChain('BTC', assets)` returns the chain
links in forward order (BTC sold for ETH, then ETH for SOL, then SOL for
ADA), and `handleRemoveAsset` rejects the deletion — reporting the chain
links to reverse, most recent hop first — when the asset both is the
proceeds of at least one SELL and starts a non-empty chain (here ETH, whose
downstream chain is ETH→SOL→ADA). -/
theorem removeAsset_rejects_chain_when_asset_is_proceeds :
    (findTransactionChain "BTC" c8Assets).map (fun c => (c.ticker, c.soldFor, c.txId)) =
      [("BTC", "ETH", "tx1"), ("ETH", "SOL", "tx2"), ("SOL", "ADA", "tx3")]
    ∧ handleRemoveAssetDecision c8Assets "eth-id" =
        .rejectedChain [("SOL", "ADA"), ("ETH", "SOL")] := by
  decide

theorem isDisposal_not_isAcquisition (tx : Transaction)
    (h : isDisposal tx = true) : isAcquisition tx = false := by
  cases htype : tx.type <;> simp_all [isAcquisition, isDisposal]

/-- C7 amended: `handleWithdrawal` itself performs no balance validation.
Disposing a quantity at least the total acquired quantity (hence more than
is held) still mutates the portfolio: the FIFO loop consumes every
acquisition lot in full (the recorded `costBasisWithdrawn` equals the total
cost of all acquisition lots), and when the recomputed quantity is non-zero
the asset is stored with that negative quantity rather than the operation
being rejected. -/
theorem handleWithdrawal_overdraw_behavior (portfolio : Portfolio) (asset : Asset)
    (q : ℚ) (date : Int) (dst : String) (tg : Option String) (freshId : String)
    (hassets : portfolio.assets = [asset])
    (hpos : ∀ tx ∈ asset.transactions, 0 < tx.quantity)
    (hover : sumQuantity (asset.transactions.filter isAcquisition) ≤ q)
    (hne : (recalculateAssetPosition asset.transactions).quantity ≠ q) :
    ∃ a' w,
      (handleWithdrawal portfolio asset q date dst tg freshId).assets = [a']
      ∧ a'.transactions = asset.transactions ++ [w]
      ∧ w.type = TxType.WITHDRAWAL
      ∧ w.quantity = q
      ∧ w.totalCost = sumTotalCost (asset.transactions.filter isAcquisition)
      ∧ a'.quantity = (recalculateAssetPosition asset.transactions).quantity - q
      ∧ a'.quantity < 0 := by
  have hlotpos : ∀ tx ∈ sortByDateAsc (asset.transactions.filter isAcquisition),
      0 < tx.quantity := by
    intro tx htx
    exact hpos tx (List.mem_of_mem_filter (mem_sortByDateAsc htx))
  have hq0 : 0 ≤ q := by
    have := sumQuantity_nonneg (asset.transactions.filter isAcquisition)
      (fun tx htx => le_of_lt (hpos tx (List.mem_of_mem_filter htx)))
    linarith
  have hsorted : sumQuantity (sortByDateAsc (asset.transactions.filter isAcquisition)) ≤ q := by
    rw [sumQuantity_sortByDateAsc]; exact hover
  have hcost : fifoConsume q (sortByDateAsc (asset.transactions.filter isAcquisition)) =
      sumTotalCost (asset.transactions.filter isAcquisition) := by
    rw [fifoConsume_consumes_all _ q hlotpos hsorted hq0, sumTotalCost_sortByDateAsc]
  have hwq : ∀ w : Transaction, w.type = TxType.WITHDRAWAL →
      (recalculateAssetPosition [w]).quantity = -w.quantity := by
    intro w hw
    simp [recalculateAssetPosition_quantity, sumQuantity, List.filter_cons,
      isAcquisition, isDisposal, hw]
  have hdisp : (recalculateAssetPosition asset.transactions).quantity ≤
      sumQuantity (asset.transactions.filter isAcquisition) := by
    rw [recalculateAssetPosition_quantity]
    have : 0 ≤ sumQuantity (asset.transactions.filter isDisposal) :=
      sumQuantity_nonneg _ (fun tx htx => le_of_lt (hpos tx (List.mem_of_mem_filter htx)))
    linarith
  simp only [handleWithdrawal, hassets]
  set w : Transaction :=
    { id := freshId
      type := .WITHDRAWAL
      quantity := q
      pricePerCoin := if 0 < q then
        fifoConsume q (sortByDateAsc (asset.transactions.filter isAcquisition)) / q else 0
      date := date
      totalCost := fifoConsume q (sortByDateAsc (asset.transactions.filter isAcquisition))
      tag := tg.getD "Profit-Taking"
      withdrawalDestination := some dst } with hwdef
  have hnewq : (recalculateAssetPosition (asset.transactions ++ [w])).quantity =
      (recalculateAssetPosition asset.transactions).quantity - q := by
    rw [recalculateAssetPosition_append_quantity, hwq w rfl]
    simp only [hwdef]
    ring
  have hne0 : ((recalculateAssetPosition (asset.transactions ++ [w])).quantity == 0) = false := by
    rw [beq_eq_false_iff_ne, hnewq]
    intro hzero
    exact hne (by linarith)
  rw [hne0]
  simp only [Bool.false_eq_true, if_false, List.map_cons, List.map_nil, beq_self_eq_true,
    if_true]
  refine ⟨_, w, rfl, rfl, rfl, rfl, by simpa using hcost, by simpa using hnewq, ?_⟩
  have hlt : (recalculateAssetPosition asset.transactions).quantity - q ≤ 0 := by
    linarith [hdisp, hover]
  rw [hnewq]
  rcases lt_or_eq_of_le hlt with hlt' | heq
  · exact hlt'
  · exact absurd (by linarith) hne

/-- Witness for `handleWithdrawal_overdraw_behavior` at the concrete
over-withdrawal scenario (hold 10, withdraw 15). -/
theorem handleWithdrawal_overdraw_behavior_witness :
    ∃ a' w,
      (handleWithdrawal wdPortfolio wdAsset 15 5 "cold wallet" none "w1").assets = [a']
      ∧ a'.transactions = wdAsset.transactions ++ [w]
      ∧ w.type = TxType.WITHDRAWAL
      ∧ w.quantity = 15
      ∧ w.totalCost = sumTotalCost (wdAsset.transactions.filter isAcquisition)
      ∧ a'.quantity = (recalculateAssetPosition wdAsset.transactions).quantity - 15
      ∧ a'.quantity < 0 :=
  handleWithdrawal_overdraw_behavior wdPortfolio wdAsset 15 5 "cold wallet" none "w1"
    (by simp [wdPortfolio])
    (by intro tx htx; simp [wdAsset, baseTx] at htx; subst htx; norm_num)
    (by simp +decide [wdAsset, baseTx, sumQuantity, isAcquisition] <;> norm_num)
    (by simp +decide [wdAsset, baseTx, recalculateAssetPosition_quantity, sumQuantity,
      isAcquisition, isDisposal] <;> norm_num)

/-- C10: the FIFO cost basis computed by `handleWithdrawal` (and the
identical loop in `handlePortfolioTransfer`) reads only the asset's
BUY/DEPOSIT/INCOME transactions: two assets with identical acquisition
transactions yield the same consumed cost basis for the same disposal
quantity, whatever their SELL/WITHDRAWAL/TRANSFER transactions; in
particular appending any disposal transactions to an asset's list leaves it
unchanged — earlier disposals never decrement the recorded lots. -/
theorem fifo_cost_depends_only_on_acquisitions (a₁ a₂ : Asset) (q : ℚ)
    (hacq : a₁.transactions.filter isAcquisition = a₂.transactions.filter isAcquisition) :
    fifoConsume q (sortByDateAsc (a₁.transactions.filter isAcquisition)) =
      fifoConsume q (sortByDateAsc (a₂.transactions.filter isAcquisition))
    ∧ ∀ ds : List Transaction, (∀ d ∈ ds, isDisposal d = true) →
        fifoConsume q (sortByDateAsc ((a₁.transactions ++ ds).filter isAcquisition)) =
          fifoConsume q (sortByDateAsc (a₁.transactions.filter isAcquisition)) := by
  constructor
  · rw [hacq]
  · intro ds hds
    have hnil : ds.filter isAcquisition = [] := by
      rw [List.filter_eq_nil_iff]
      intro d hd
      simp [isDisposal_not_isAcquisition d (hds d hd)]
    rw [List.filter_append, hnil, List.append_nil]

/-- Witness for `fifo_cost_depends_only_on_acquisitions`: the same BUY lot
with and without an interleaved WITHDRAWAL yields the same FIFO cost for a
disposal of 7 units. -/
theorem fifo_cost_depends_only_on_acquisitions_witness :
    fifoConsume 7 (sortByDateAsc (assetWithDisposal.transactions.filter isAcquisition)) =
      fifoConsume 7 (sortByDateAsc (assetLotOnly.transactions.filter isAcquisition)) :=
  (fifo_cost_depends_only_on_acquisitions assetWithDisposal assetLotOnly 7 (by decide)).1

/-- C9 amended: an asset whose recomputed quantity reaches exactly zero is
removed by the withdrawal apply path and by `calculateWithdrawalReversal`
(even when transactions remain), but `calculateLinkedBuySellReversal`
removes the destination asset only when, in addition, its remaining
transaction list is empty — a zero-quantity destination asset with remaining
transactions is kept as a zero-row. -/
theorem zero_quantity_removal_paths
    (p₁ : Portfolio) (a₁ : Asset) (q : ℚ) (d : Int) (dst : String)
    (tg : Option String) (fid : String)
    (p₂ : Portfolio) (a₂ : Asset) (tid : String)
    (p₃ : Portfolio) (a₃ : Asset) (bt st sa : String)
    (h₁ : p₁.assets = [a₁])
    (h₁q : (recalculateAssetPosition a₁.transactions).quantity = q)
    (h₂ : p₂.assets = [a₂])
    (h₂z : (recalculateAssetPosition
        (a₂.transactions.filter (fun tx => tx.id != tid))).quantity = 0)
    (h₃ : p₃.assets = [a₃])
    (h₃e : a₃.transactions.filter (fun tx => tx.id != bt) = []) :
    (handleWithdrawal p₁ a₁ q d dst tg fid).assets = []
    ∧ calculateWithdrawalReversal p₂ a₂.id tid = []
    ∧ (calculateLinkedBuySellReversal p₃ a₃.id bt sa st).1 = [] := by
  refine ⟨?_, ?_, ?_⟩
  · simp only [handleWithdrawal, h₁]
    have hwq : (recalculateAssetPosition (a₁.transactions ++
        [{ id := fid
           type := .WITHDRAWAL
           quantity := q
           pricePerCoin := if 0 < q then
             fifoConsume q (sortByDateAsc (a₁.transactions.filter isAcquisition)) / q else 0
           date := d
           totalCost := fifoConsume q (sortByDateAsc (a₁.transactions.filter isAcquisition))
           tag := tg.getD "Profit-Taking"
           withdrawalDestination := some dst }])).quantity = 0 := by
      rw [recalculateAssetPosition_append_quantity, h₁q]
      simp [recalculateAssetPosition_quantity, sumQuantity, List.filter_cons,
        isAcquisition, isDisposal]
    rw [hwq]
    simp
  · have hfind : List.find? (fun a => a.id == a₂.id) p₂.assets = some a₂ := by
      rw [h₂]
      simp [List.find?]
    simp only [calculateWithdrawalReversal, hfind, h₂z]
    simp [h₂]
  · simp only [calculateLinkedBuySellReversal, h₃, List.filterMap_cons, bne_self_eq_false,
      Bool.false_eq_true, if_false, h₃e]
    simp [recalculateAssetPosition, sumQuantity, sumTotalCost, List.isEmpty]

/-- Witness for `zero_quantity_removal_paths` at concrete inputs: a full
withdrawal of a 10-unit position, a withdrawal reversal leaving a BUY and a
SELL that net to zero, and a linked-pair reversal on a single-transaction
destination asset. -/
theorem zero_quantity_removal_paths_witness :
    (handleWithdrawal wdPortfolio wdAsset 10 5 "cold" none "wz").assets = []
    ∧ calculateWithdrawalReversal q1Portfolio z2Asset.id "zw" = []
    ∧ (calculateLinkedBuySellReversal q2Portfolio z3Asset.id "zbuy" "other" "zsell").1 = [] :=
  zero_quantity_removal_paths
    wdPortfolio wdAsset 10 5 "cold" none "wz"
    q1Portfolio z2Asset "zw"
    q2Portfolio z3Asset "zbuy" "zsell" "other"
    (by simp [wdPortfolio])
    (by simp +decide [wdAsset, baseTx, recalculateAssetPosition_quantity, sumQuantity,
      isAcquisition, isDisposal] <;> norm_num)
    (by simp [q1Portfolio])
    (by simp +decide [z2Asset, baseTx, baseAsset, recalculateAssetPosition_quantity,
      sumQuantity, isAcquisition, isDisposal, List.filter_cons] <;> norm_num)
    (by simp [q2Portfolio])
    (by simp +decide [z3Asset, baseTx, baseAsset, List.filter_cons])

/-- C4 amended (positive half): applying a partial withdrawal to a
consistent asset (stored aggregates equal to the recomputation, non-zero
quantity, fresh withdrawal id) and then immediately deleting that withdrawal
via `calculateWithdrawalReversal` restores the portfolio's asset list
byte-for-byte. -/
theorem withdrawal_roundtrip (portfolio : Portfolio) (preA postA : List Asset)
    (asset : Asset) (q : ℚ) (date : Int) (dst : String) (tg : Option String)
    (freshId : String)
    (hassets : portfolio.assets = preA ++ asset :: postA)
    (hids : ∀ b ∈ preA ++ postA, b.id ≠ asset.id)
    (hfresh : ∀ tx ∈ asset.transactions, tx.id ≠ freshId)
    (hq : asset.quantity = (recalculateAssetPosition asset.transactions).quantity)
    (hc : asset.totalCostBasis = (recalculateAssetPosition asset.transactions).totalCostBasis)
    (ha : asset.avgBuyPrice = (recalculateAssetPosition asset.transactions).avgBuyPrice)
    (hq0 : (recalculateAssetPosition asset.transactions).quantity ≠ 0)
    (hremain : (recalculateAssetPosition asset.transactions).quantity ≠ q) :
    calculateWithdrawalReversal
      (handleWithdrawal portfolio asset q date dst tg freshId) asset.id freshId
      = portfolio.assets := by
  set w : Transaction :=
    { id := freshId
      type := .WITHDRAWAL
      quantity := q
      pricePerCoin := if 0 < q then
        fifoConsume q (sortByDateAsc (asset.transactions.filter isAcquisition)) / q else 0
      date := date
      totalCost := fifoConsume q (sortByDateAsc (asset.transactions.filter isAcquisition))
      tag := tg.getD "Profit-Taking"
      withdrawalDestination := some dst } with hwdef
  have hwq : (recalculateAssetPosition [w]).quantity = -q := by
    simp [recalculateAssetPosition_quantity, sumQuantity, List.filter_cons,
      isAcquisition, isDisposal, hwdef]
  have hnewq : (recalculateAssetPosition (asset.transactions ++ [w])).quantity =
      (recalculateAssetPosition asset.transactions).quantity - q := by
    rw [recalculateAssetPosition_append_quantity, hwq]
    ring
  have hcond : ((recalculateAssetPosition (asset.transactions ++ [w])).quantity == 0) = false := by
    rw [beq_eq_false_iff_ne, hnewq]
    intro hzero
    exact hremain (by linarith)
  set upd : Asset :=
    { asset with
        quantity := (recalculateAssetPosition (asset.transactions ++ [w])).quantity
        transactions := asset.transactions ++ [w]
        totalCostBasis := (recalculateAssetPosition (asset.transactions ++ [w])).totalCostBasis
        avgBuyPrice := if 0 < (recalculateAssetPosition (asset.transactions ++ [w])).quantity
          then (recalculateAssetPosition (asset.transactions ++ [w])).totalCostBasis /
            (recalculateAssetPosition (asset.transactions ++ [w])).quantity
          else 0 } with hupddef
  have hP' : (handleWithdrawal portfolio asset q date dst tg freshId).assets =
      preA ++ upd :: postA := by
    simp only [handleWithdrawal, hcond, Bool.false_eq_true, if_false, hassets]
    rw [List.map_append, List.map_cons]
    congr 1
    · apply map_eq_self_of_fixed
      intro b hb
      rw [if_neg]
      simp [hids b (List.mem_append_left _ hb)]
    congr 1
    · rw [if_pos (by simp)]
    · apply map_eq_self_of_fixed
      intro b hb
      rw [if_neg]
      simp [hids b (List.mem_append_right _ hb)]
  have hfilter : (asset.transactions ++ [w]).filter (fun tx => tx.id != freshId) =
      asset.transactions := by
    rw [List.filter_append]
    have h1 : asset.transactions.filter (fun tx => tx.id != freshId) = asset.transactions :=
      List.filter_eq_self.mpr (fun tx htx => by simp [hfresh tx htx])
    have h2 : ([w] : List Transaction).filter (fun tx => tx.id != freshId) = [] := by
      simp [hwdef]
    rw [h1, h2, List.append_nil]
  have hfind : ((handleWithdrawal portfolio asset q date dst tg freshId).assets.find?
      (fun a => a.id == asset.id)) = some upd := by
    rw [hP', List.find?_append]
    have h1 : preA.find? (fun a => a.id == asset.id) = none :=
      List.find?_eq_none.mpr (fun b hb => by simp [hids b (List.mem_append_left _ hb)])
    rw [h1]
    simp [List.find?_cons_of_pos]
  simp only [calculateWithdrawalReversal, hfind, hupddef, hfilter]
  have hcond2 : ((recalculateAssetPosition asset.transactions).quantity == 0) = false :=
    beq_eq_false_iff_ne.mpr hq0
  rw [hcond2]
  simp only [Bool.false_eq_true, if_false, hP']
  rw [List.map_append, List.map_cons, hassets]
  congr 1
  · apply map_eq_self_of_fixed
    intro b hb
    rw [if_neg]
    simp [hids b (List.mem_append_left _ hb)]
  congr 1
  · rw [if_pos (by simp), ← hq, ← hc, ← ha]
  · apply map_eq_self_of_fixed
    intro b hb
    rw [if_neg]
    simp [hids b (List.mem_append_right _ hb)]

/-- Witness for `withdrawal_roundtrip`: withdraw 4 of 10 units and delete
the withdrawal again. -/
theorem withdrawal_roundtrip_witness :
    calculateWithdrawalReversal
      (handleWithdrawal wdPortfolio wdAsset 4 7 "wallet" none "wr") wdAsset.id "wr"
      = wdPortfolio.assets :=
  withdrawal_roundtrip wdPortfolio [] [] wdAsset 4 7 "wallet" none "wr"
    (by simp [wdPortfolio])
    (by simp)
    (by intro tx htx; simp [wdAsset, baseTx] at htx; subst htx; decide)
    (by simp +decide [wdAsset, baseTx, recalculateAssetPosition_quantity, sumQuantity,
      isAcquisition, isDisposal] <;> norm_num)
    (by simp +decide [wdAsset, baseTx, recalculateAssetPosition_totalCostBasis,
      sumTotalCost, isAcquisition, isDisposal] <;> norm_num)
    (by simp +decide [wdAsset, baseTx, recalculateAssetPosition_avgBuyPrice,
      recalculateAssetPosition_quantity, recalculateAssetPosition_totalCostBasis,
      sumQuantity, sumTotalCost, isAcquisition, isDisposal] <;> norm_num)
    (by simp +decide [wdAsset, baseTx, recalculateAssetPosition_quantity, sumQuantity,
      isAcquisition, isDisposal] <;> norm_num)
    (by simp +decide [wdAsset, baseTx, recalculateAssetPosition_quantity, sumQuantity,
      isAcquisition, isDisposal] <;> norm_num)

/-- C4 counterexample: a BUY created by spending another asset, reversed via
`calculateLegacyBuyReversal`, does not restore the pre-apply state.  Spending
the whole 1 BTC (bought for 100) on 20 ETH at market price 500 and then
reversing the BUY through the legacy path recreates BTC as a synthesized
DEPOSIT valued at the BUY's totalCost (500): the restored asset's
transaction list (a DEPOSIT instead of the original BUY) and cost basis
(500 instead of 100) differ from the original beyond fresh transaction
ids. -/
theorem legacy_buy_reversal_not_roundtrip :
    c4P0.assets.map (fun a => (a.ticker, a.totalCostBasis)) = [("BTC", 100)]
    ∧ c4P2assets.map (fun a => (a.ticker, a.totalCostBasis)) = [("BTC", 500)]
    ∧ (c4P2assets.headD baseAsset).transactions.map Transaction.type = [TxType.DEPOSIT]
    ∧ c4Btc.transactions.map Transaction.type = [TxType.BUY]
    ∧ ((500 : ℚ) ≠ 100) := by
  have e₁ : (jsToUpper "BTC" == jsToUpper "BTC") = true := by decide
  have e₂ : (jsToUpper "BTC" == jsToUpper "ETH") = false := by decide
  have e₃ : stringContainsChar "ETH" '.' = false := by decide
  have e₄ : usdIsCash "BTC" = false := by decide
  have e₅ : usdIsCash "ETH" = false := by decide
  have hP1 : c4P1 = c4P1Lit := by
    simp +decide [c4P1, handleBuyWithValidation, c4P0, c4Btc, baseTx, fixedPrice,
      usdIsCash, allUSD, usdRates, fifoConsumeUSD, fifoClosedPositions, sortByDateAsc,
      insertByDate, recalculateAssetPosition, sumQuantity, sumTotalCost, isAcquisition,
      isDisposal, min_def, List.find?, convertCurrencySync, e₁, e₂, e₃, e₄, e₅,
      c4P1Lit, c4EthAsset, c4SwapBuyTx, c4CP] <;> norm_num
  have hBuy : c4BuyTx = c4SwapBuyTx := by
    rw [c4BuyTx, hP1]
    simp +decide [txsOf, c4P1Lit, c4EthAsset, List.find?, c4SwapBuyTx]
  have hP2 : c4P2assets = calculateLegacyBuyReversal c4P1Lit "ethid" "b1" c4SwapBuyTx
      "ETH" "r1" "na1" "nt1" := by
    rw [c4P2assets, hP1, hBuy]
  refine ⟨by simp +decide [c4P0, c4Btc, baseTx] <;> norm_num, ?_, ?_,
    by simp +decide [c4Btc, baseTx], by norm_num⟩ <;>
    rw [hP2] <;>
    simp +decide [calculateLegacyBuyReversal, c4P1Lit, c4EthAsset, c4SwapBuyTx, baseTx,
      baseAsset, recalculateAssetPosition, sumQuantity, sumTotalCost, isAcquisition,
      isDisposal, List.find?, jsToUpper, charUpper] <;> norm_num

theorem linkedReversal_removes_pair_of_localized (Q : Portfolio)
    (bAid bTid sAid sTid : String)
    (hQb : ∀ a ∈ Q.assets, ∀ t ∈ a.transactions, t.id = bTid → a.id = bAid)
    (hQs : ∀ a ∈ Q.assets, ∀ t ∈ a.transactions, t.id = sTid → a.id = sAid) :
    linkedReversalRemovesPair Q bAid bTid sAid sTid := by
  unfold linkedReversalRemovesPair calculateLinkedBuySellReversal
  refine ⟨?_, ?_, ?_⟩
  · intro a' ha' t ht
    obtain ⟨a'', ha''mem, rfl⟩ := List.mem_map.mp ha'
    obtain ⟨a, haQ, hfa⟩ := List.mem_filterMap.mp ha''mem
    by_cases hba : (a.id != bAid) = true
    · rw [if_pos hba] at hfa
      injection hfa with hfa
      subst hfa
      have haid : a.id ≠ bAid := by simpa using hba
      by_cases hsa : (a.id != sAid) = true
      · rw [if_pos hsa] at ht
        have hsaid : a.id ≠ sAid := by simpa using hsa
        exact ⟨fun he => haid (hQb a haQ t ht he), fun he => hsaid (hQs a haQ t ht he)⟩
      · rw [if_neg hsa] at ht
        simp only [List.mem_filter, bne_iff_ne, ne_eq] at ht
        exact ⟨fun he => haid (hQb a haQ t ht.1 he), ht.2⟩
    · rw [if_neg hba] at hfa
      have haid : a.id = bAid := by simpa using hba
      by_cases hz : ((recalculateAssetPosition
          (a.transactions.filter (fun tx => tx.id != bTid))).quantity == 0
          && (a.transactions.filter (fun tx => tx.id != bTid)).isEmpty) = true
      · rw [if_pos hz] at hfa
        exact absurd hfa (by simp)
      · rw [if_neg hz] at hfa
        injection hfa with hfa
        subst hfa
        by_cases hsa : (a.id != sAid) = true
        · rw [if_pos hsa] at ht
          simp only [List.mem_filter, bne_iff_ne, ne_eq] at ht
          have hsaid : a.id ≠ sAid := by simpa using hsa
          exact ⟨ht.2, fun he => hsaid (hQs a haQ t ht.1 he)⟩
        · rw [if_neg hsa] at ht
          simp only [List.mem_filter, bne_iff_ne, ne_eq] at ht
          exact ⟨ht.1.2, ht.2⟩
  · intro cp hcp
    simp only [List.mem_filter, bne_iff_ne, ne_eq] at hcp
    exact hcp.2
  · intro a' ha' hid
    obtain ⟨a'', ha''mem, rfl⟩ := List.mem_map.mp ha'
    obtain ⟨a, haQ, hfa⟩ := List.mem_filterMap.mp ha''mem
    by_cases hsa : (a''.id != sAid) = true
    · rw [if_pos hsa] at hid ⊢
      -- a' = a''; its id is bAid (the sAid case is excluded)
      by_cases hba : (a.id != bAid) = true
      · rw [if_pos hba] at hfa
        injection hfa with hfa
        subst hfa
        rcases hid with hid | hid
        · exact absurd hid (by simpa using hba)
        · exact absurd hid (by simpa using hsa)
      · rw [if_neg hba] at hfa
        by_cases hz : ((recalculateAssetPosition
            (a.transactions.filter (fun tx => tx.id != bTid))).quantity == 0
            && (a.transactions.filter (fun tx => tx.id != bTid)).isEmpty) = true
        · rw [if_pos hz] at hfa
          exact absurd hfa (by simp)
        · rw [if_neg hz] at hfa
          injection hfa with hfa
          subst hfa
          exact ⟨rfl, rfl, rfl⟩
    · rw [if_neg hsa] at hid ⊢
      exact ⟨rfl, rfl, rfl⟩

theorem recalc_append_disposal_quantity (l : List Transaction) (t : Transaction)
    (ht : isDisposal t = true) :
    (recalculateAssetPosition (l ++ [t])).quantity =
      (recalculateAssetPosition l).quantity - t.quantity := by
  rw [recalculateAssetPosition_append_quantity]
  have h2 : isAcquisition t = false := by
    cases htype : t.type <;> simp_all [isAcquisition, isDisposal]
  have h1 : (recalculateAssetPosition [t]).quantity = -t.quantity := by
    simp [recalculateAssetPosition_quantity, sumQuantity, List.filter_cons, h2, ht]
  rw [h1]
  ring

theorem map_ite_id_split (preA postA : List Asset) (sa : Asset) {F : Asset → Asset}
    (hids : ∀ b ∈ preA ++ postA, b.id ≠ sa.id) :
    (preA ++ sa :: postA).map (fun a => if (a.id == sa.id) = true then F a else a) =
      preA ++ F sa :: postA := by
  rw [List.map_append, List.map_cons]
  rw [map_eq_self_of_fixed preA _
    (fun b hb => by rw [if_neg (by simp [hids b (List.mem_append_left _ hb)])]),
    map_eq_self_of_fixed postA _
    (fun b hb => by rw [if_neg (by simp [hids b (List.mem_append_right _ hb)])])]
  rw [if_pos (by simp)]

theorem txs_map_ite_update_perm (l : List Asset) (i : String) (F : Asset → Asset)
    (tx : Transaction)
    (hF : ∀ a : Asset, (F a).transactions = a.transactions ++ [tx])
    (hcount : l.countP (fun a => a.id == i) = 1) :
    ((l.map (fun a => if (a.id == i) = true then F a else a)).flatMap
        Asset.transactions).Perm (l.flatMap Asset.transactions ++ [tx]) := by
  induction l with
  | nil => simp at hcount
  | cons a as ih =>
    rw [List.countP_cons] at hcount
    rw [List.map_cons, List.flatMap_cons, List.flatMap_cons]
    by_cases ha : (a.id == i) = true
    · have hc0 : as.countP (fun a => a.id == i) = 0 := by
        simp only [ha, if_true] at hcount
        omega
      have hmapid : as.map (fun a => if (a.id == i) = true then F a else a) = as :=
        map_eq_self_of_fixed _ _ (fun b hb => if_neg (by
          have := List.countP_eq_zero.mp hc0 b hb
          simpa using this))
      rw [if_pos ha, hmapid, hF a, List.append_assoc, List.append_assoc]
      exact List.Perm.append_left _ List.perm_append_comm
    · have hc1 : as.countP (fun a => a.id == i) = 1 := by
        simpa [ha] using hcount
      rw [if_neg ha, List.append_assoc]
      exact List.Perm.append_left _ (ih hc1)

/-- C5 amended: a swap created by `handleBuyWithValidation` on a source
asset whose recomputed quantity does not drop to exactly zero produces
exactly one SELL and exactly one BUY carrying the fresh
`transactionPairId`, pointing at each other through
`linkedBuySellTransactionId` — whether the destination ticker is new to the
portfolio (a fresh asset is appended) or already held (the BUY merges into
the first asset whose upper-cased ticker matches); and
`calculateLinkedBuySellReversal` — the function the deletion dispatcher
invokes on either member — removes both transactions, removes every
ClosedPosition whose `sellTransactionId` is the pair's SELL id, and
recomputes the touched assets' aggregates.  (When the swap spends the
source asset's whole balance the source asset is removed together with the
freshly created SELL, so the pair property fails — see the
counterexample.) -/
theorem swap_pair_and_linked_reversal
    (G : Asset → Int → ℚ) (cash : String → Bool) (detect : String → String)
    (hr : Option Rates) (er : Rates) (P : Portfolio)
    (srcT : String) (srcQ : ℚ) (dstT : String) (dstQ : ℚ) (date : Int)
    (tg : Option String) (pairId buyTxId sellTxId ndid : String)
    (preA postA : List Asset) (sa : Asset)
    (hsplit : P.assets = preA ++ sa :: postA)
    (hpre : ∀ b ∈ preA, (jsToUpper b.ticker == jsToUpper srcT) = false)
    (hsa : (jsToUpper sa.ticker == jsToUpper srcT) = true)
    (hids : ∀ b ∈ preA ++ postA, b.id ≠ sa.id)
    (hdest : (∀ a ∈ P.assets, (jsToUpper a.ticker == jsToUpper dstT) = false)
      ∨ (∃ preD postD da, P.assets = preD ++ da :: postD
          ∧ (∀ b ∈ preD, (jsToUpper b.ticker == jsToUpper dstT) = false)
          ∧ (jsToUpper da.ticker == jsToUpper dstT) = true
          ∧ (∀ b ∈ preD ++ postD, b.id ≠ da.id)))
    (hfresh : ∀ tx ∈ txsOf P, tx.transactionPairId ≠ some pairId)
    (hnz : (recalculateAssetPosition sa.transactions).quantity ≠ srcQ)
    (Q : Portfolio) (bAid bTid sAid sTid : String)
    (hQb : ∀ a ∈ Q.assets, ∀ t ∈ a.transactions, t.id = bTid → a.id = bAid)
    (hQs : ∀ a ∈ Q.assets, ∀ t ∈ a.transactions, t.id = sTid → a.id = sAid) :
    swapCreatesLinkedPair
      (handleBuyWithValidation G cash detect hr er P srcT srcQ dstT dstQ date tg
        pairId buyTxId sellTxId ndid) pairId buyTxId sellTxId
    ∧ linkedReversalRemovesPair Q bAid bTid sAid sTid := by
  refine ⟨?_, linkedReversal_removes_pair_of_localized Q bAid bTid sAid sTid hQb hQs⟩
  have hfindtail : List.find? (fun a => jsToUpper a.ticker == jsToUpper srcT)
      (sa :: postA) = some sa :=
    List.find?_cons_of_pos _ (by exact hsa)
  have hfindsrc : P.assets.find? (fun a => jsToUpper a.ticker == jsToUpper srcT) =
      some sa := by
    rw [hsplit, List.find?_append, List.find?_eq_none.mpr
      (fun b hb => by simp [hpre b hb]), hfindtail]
    rfl
  have hcondsimp : ∀ t : Transaction, t.type = TxType.SELL →
      ((recalculateAssetPosition (sa.transactions ++ [t])).quantity == 0) =
        (((recalculateAssetPosition sa.transactions).quantity - t.quantity) == 0) := by
    intro t ht
    rw [recalc_append_disposal_quantity _ _ (by simp [isDisposal, ht])]
  have hne' : (((recalculateAssetPosition sa.transactions).quantity - srcQ) == 0)
      = false := by
    rw [beq_eq_false_iff_ne]
    intro h
    exact hnz (by linarith)
  have hmain : ∃ sTx bTx : Transaction,
      (txsOf (handleBuyWithValidation G cash detect hr er P srcT srcQ dstT dstQ date tg
        pairId buyTxId sellTxId ndid)).Perm (txsOf P ++ ([sTx] ++ [bTx]))
      ∧ sTx.id = sellTxId ∧ sTx.type = TxType.SELL
      ∧ sTx.transactionPairId = some pairId
      ∧ sTx.linkedBuySellTransactionId = some buyTxId
      ∧ bTx.id = buyTxId ∧ bTx.type = TxType.BUY
      ∧ bTx.transactionPairId = some pairId
      ∧ bTx.linkedBuySellTransactionId = some sellTxId := by
    rcases hdest with hnone | ⟨preD, postD, da, hD, hpreD, hda, hidsD⟩
    · have hfinddst : P.assets.find? (fun a => jsToUpper a.ticker == jsToUpper dstT) =
          none :=
        List.find?_eq_none.mpr (fun a ha => by simp [hnone a ha])
      have hshape : ∃ (u d : Asset) (sTx bTx : Transaction),
          (handleBuyWithValidation G cash detect hr er P srcT srcQ dstT dstQ date tg
            pairId buyTxId sellTxId ndid).assets = (preA ++ u :: postA) ++ [d]
          ∧ u.transactions = sa.transactions ++ [sTx]
          ∧ d.transactions = [bTx]
          ∧ sTx.id = sellTxId ∧ sTx.type = TxType.SELL
          ∧ sTx.transactionPairId = some pairId
          ∧ sTx.linkedBuySellTransactionId = some buyTxId
          ∧ bTx.id = buyTxId ∧ bTx.type = TxType.BUY
          ∧ bTx.transactionPairId = some pairId
          ∧ bTx.linkedBuySellTransactionId = some sellTxId := by
        simp only [handleBuyWithValidation, hfindsrc, hfinddst, hcondsimp, hne',
          Bool.false_eq_true, if_false]
        rw [hsplit, map_ite_id_split _ _ _ hids]
        exact ⟨_, _, _, _, rfl, rfl, rfl, rfl, rfl, rfl, rfl, rfl, rfl, rfl, rfl⟩
      obtain ⟨u, d, sTx, bTx, hPA, hu, hd, hsid, hstype, hspair, hslink, hbid, hbtype,
        hbpair, hblink⟩ := hshape
      refine ⟨sTx, bTx, ?_, hsid, hstype, hspair, hslink, hbid, hbtype, hbpair, hblink⟩
      rw [txsOf, hPA, txsOf, hsplit]
      simp only [List.flatMap_append, List.flatMap_cons, List.flatMap_nil,
        List.append_nil, hu, hd]
      rw [List.perm_iff_count]
      intro t
      simp only [List.count_append]
      ring
    · have hfindtailD : List.find? (fun a => jsToUpper a.ticker == jsToUpper dstT)
          (da :: postD) = some da :=
        List.find?_cons_of_pos _ (by exact hda)
      have hfinddst : P.assets.find? (fun a => jsToUpper a.ticker == jsToUpper dstT) =
          some da := by
        rw [hD, List.find?_append, List.find?_eq_none.mpr
          (fun b hb => by simp [hpreD b hb]), hfindtailD]
        rfl
      have hshape : ∃ (u : Asset) (U : Asset → Asset) (sTx bTx : Transaction),
          (handleBuyWithValidation G cash detect hr er P srcT srcQ dstT dstQ date tg
            pairId buyTxId sellTxId ndid).assets =
            (preA ++ u :: postA).map (fun a => if (a.id == da.id) = true then U a else a)
          ∧ (∀ a : Asset, (U a).transactions = a.transactions ++ [bTx])
          ∧ u.transactions = sa.transactions ++ [sTx]
          ∧ u.id = sa.id
          ∧ sTx.id = sellTxId ∧ sTx.type = TxType.SELL
          ∧ sTx.transactionPairId = some pairId
          ∧ sTx.linkedBuySellTransactionId = some buyTxId
          ∧ bTx.id = buyTxId ∧ bTx.type = TxType.BUY
          ∧ bTx.transactionPairId = some pairId
          ∧ bTx.linkedBuySellTransactionId = some sellTxId := by
        simp only [handleBuyWithValidation, hfindsrc, hfinddst, hcondsimp, hne',
          Bool.false_eq_true, if_false]
        rw [hsplit, map_ite_id_split _ _ _ hids]
        exact ⟨_, _, _, _, rfl, fun a => rfl, rfl, rfl, rfl, rfl, rfl, rfl, rfl, rfl,
          rfl, rfl⟩
      obtain ⟨u, U, sTx, bTx, hPA, hU, hu, huid, hsid, hstype, hspair, hslink, hbid,
        hbtype, hbpair, hblink⟩ := hshape
      refine ⟨sTx, bTx, ?_, hsid, hstype, hspair, hslink, hbid, hbtype, hbpair, hblink⟩
      have h1 : (preA ++ sa :: postA).countP (fun a => a.id == da.id) = 1 := by
        rw [← hsplit, hD, List.countP_append, List.countP_cons]
        have hpre0 : preD.countP (fun a => a.id == da.id) = 0 :=
          List.countP_eq_zero.mpr (fun b hb => by
            simpa using hidsD b (List.mem_append_left _ hb))
        have hpost0 : postD.countP (fun a => a.id == da.id) = 0 :=
          List.countP_eq_zero.mpr (fun b hb => by
            simpa using hidsD b (List.mem_append_right _ hb))
        simp [hpre0, hpost0]
      have hcountP : (preA ++ u :: postA).countP (fun a => a.id == da.id) = 1 := by
        rw [List.countP_append, List.countP_cons, huid]
        rw [List.countP_append, List.countP_cons] at h1
        exact h1
      rw [txsOf, hPA]
      refine (txs_map_ite_update_perm _ _ _ _ hU hcountP).trans ?_
      rw [txsOf, hsplit]
      simp only [List.flatMap_append, List.flatMap_cons, hu]
      rw [List.perm_iff_count]
      intro t
      simp only [List.count_append]
      ring
  obtain ⟨sTx, bTx, hperm, hsid, hstype, hspair, hslink, hbid, hbtype, hbpair,
    hblink⟩ := hmain
  have hcount0 : ∀ p : Transaction → Bool,
      (∀ t, p t = true → t.transactionPairId = some pairId) →
      (txsOf P).countP p = 0 := by
    intro p hp
    apply List.countP_eq_zero.mpr
    intro t ht hpt
    exact hfresh t ht (hp t hpt)
  refine ⟨sTx, bTx, ?_, ?_, hsid, hbid, hstype, hbtype, hspair, hbpair, hslink, hblink,
    ?_, ?_, ?_⟩
  · exact hperm.mem_iff.mpr (List.mem_append_right _ (by simp))
  · exact hperm.mem_iff.mpr (List.mem_append_right _ (by simp))
  · rw [List.Perm.countP_eq _ hperm]
    simp only [List.countP_append]
    rw [hcount0 _ (fun t hpt => by
      simp only [Bool.and_eq_true, beq_iff_eq] at hpt; exact hpt.2)]
    have hps : ([sTx].countP
        (fun t => t.type == TxType.SELL && t.transactionPairId == some pairId)) = 1 := by
      simp [List.countP_cons, hstype, hspair]
    have hpb : ([bTx].countP
        (fun t => t.type == TxType.SELL && t.transactionPairId == some pairId)) = 0 := by
      simp [List.countP_cons, hbtype]
    simp [hps, hpb]
  · rw [List.Perm.countP_eq _ hperm]
    simp only [List.countP_append]
    rw [hcount0 _ (fun t hpt => by
      simp only [Bool.and_eq_true, beq_iff_eq] at hpt; exact hpt.2)]
    have hps : ([sTx].countP
        (fun t => t.type == TxType.BUY && t.transactionPairId == some pairId)) = 0 := by
      simp [List.countP_cons, hstype]
    have hpb : ([bTx].countP
        (fun t => t.type == TxType.BUY && t.transactionPairId == some pairId)) = 1 := by
      simp [List.countP_cons, hbtype, hbpair]
    simp [hps, hpb]
  · intro t htmem htpair
    rcases List.mem_append.mp (hperm.mem_iff.mp htmem) with h | h
    · exact absurd htpair (hfresh t h)
    · rcases List.mem_append.mp h with h | h
      · simp only [List.mem_singleton] at h
        exact Or.inl h
      · simp only [List.mem_singleton] at h
        exact Or.inr h

/-- C5 counterexample: when the swap spends the source asset's entire
balance (1 BTC held, 1 BTC spent for 20 ETH), the source asset is removed
from the portfolio together with the SELL member that was just created: the
resulting state contains no SELL carrying the pair id (and no transaction
with the SELL's id at all), only the BUY — so the swap does not produce the
claimed linked pair. -/
theorem swap_full_spend_drops_sell_member :
    (txsOf c5P1).countP
      (fun t => t.type == TxType.SELL && t.transactionPairId == some "pair5") = 0
    ∧ (txsOf c5P1).countP
      (fun t => t.type == TxType.BUY && t.transactionPairId == some "pair5") = 1
    ∧ ∀ t ∈ txsOf c5P1, t.id ≠ "s5" := by
  have e₁ : (jsToUpper "BTC" == jsToUpper "BTC") = true := by decide
  have e₂ : (jsToUpper "BTC" == jsToUpper "ETH") = false := by decide
  have e₃ : stringContainsChar "ETH" '.' = false := by decide
  have e₄ : usdIsCash "BTC" = false := by decide
  have e₅ : usdIsCash "ETH" = false := by decide
  have hP1 : c5P1 = c5P1Lit := by
    simp +decide [c5P1, handleBuyWithValidation, c5P0, c5Btc, baseTx, fixedPrice,
      usdIsCash, allUSD, usdRates, fifoConsumeUSD, fifoClosedPositions, sortByDateAsc,
      insertByDate, recalculateAssetPosition, sumQuantity, sumTotalCost, isAcquisition,
      isDisposal, min_def, List.find?, convertCurrencySync, e₁, e₂, e₃, e₄, e₅,
      c5P1Lit, c5SwapBuyTx] <;> norm_num
  rw [hP1]
  refine ⟨?_, ?_, ?_⟩ <;> simp +decide [txsOf, c5P1Lit, c5SwapBuyTx]

/-- Witness for `swap_pair_and_linked_reversal`, exercising both
destination branches: a partial spend of 1 of 2 held BTC for 20 fresh ETH
(new destination asset), the same swap into a portfolio that already holds
an ETH asset (merge into the existing asset), and the linked-pair reversal
on the concrete `c9Portfolio` whose pair transactions live on the expected
assets. -/
theorem swap_pair_and_linked_reversal_witness :
    (swapCreatesLinkedPair
      (handleBuyWithValidation fixedPrice usdIsCash allUSD none usdRates c5WP0
        "BTC" 1 "ETH" 20 5 none "pairW" "bW" "sW" "ethW") "pairW" "bW" "sW"
    ∧ linkedReversalRemovesPair c9Portfolio "eth" "b1" "btc" "s1")
    ∧ (swapCreatesLinkedPair
      (handleBuyWithValidation fixedPrice usdIsCash allUSD none usdRates c5EP0
        "BTC" 1 "ETH" 20 5 none "pairE" "bE" "sE" "ndE") "pairE" "bE" "sE"
    ∧ linkedReversalRemovesPair c9Portfolio "eth" "b1" "btc" "s1") :=
  ⟨swap_pair_and_linked_reversal fixedPrice usdIsCash allUSD none usdRates c5WP0
    "BTC" 1 "ETH" 20 5 none "pairW" "bW" "sW" "ethW" [] [] c5WBtc
    rfl
    (by simp)
    (by decide)
    (by simp)
    (Or.inl (by intro a ha; simp [c5WP0] at ha; subst ha; decide))
    (by intro tx htx; simp [txsOf, c5WP0, c5WBtc, c5WLot, baseTx] at htx; subst htx; decide)
    (by simp +decide [c5WBtc, c5WLot, baseTx, recalculateAssetPosition_quantity,
      sumQuantity, isAcquisition, isDisposal] <;> norm_num)
    c9Portfolio "eth" "b1" "btc" "s1"
    (by decide)
    (by decide),
  swap_pair_and_linked_reversal fixedPrice usdIsCash allUSD none usdRates c5EP0
    "BTC" 1 "ETH" 20 5 none "pairE" "bE" "sE" "ndE" [] [c5EEth] c5WBtc
    rfl
    (by simp)
    (by decide)
    (by intro b hb; simp at hb; subst hb; decide)
    (Or.inr ⟨[c5WBtc], [], c5EEth, rfl,
      (by intro b hb; simp at hb; subst hb; decide),
      (by decide),
      (by intro b hb; simp at hb; subst hb; decide)⟩)
    (by intro tx htx
        simp [txsOf, c5EP0, c5WBtc, c5EEth, c5WLot, c5EEthLot, baseTx] at htx
        rcases htx with h | h <;> subst h <;> decide)
    (by simp +decide [c5WBtc, c5WLot, baseTx, recalculateAssetPosition_quantity,
      sumQuantity, isAcquisition, isDisposal] <;> norm_num)
    c9Portfolio "eth" "b1" "btc" "s1"
    (by decide)
    (by decide)⟩

theorem recalc_append_disposal_cost (l : List Transaction) (t : Transaction)
    (ht : isDisposal t = true) :
    (recalculateAssetPosition (l ++ [t])).totalCostBasis =
      (recalculateAssetPosition l).totalCostBasis - t.totalCost := by
  rw [recalculateAssetPosition_append_totalCostBasis]
  have h2 : isAcquisition t = false := by
    cases htype : t.type <;> simp_all [isAcquisition, isDisposal]
  have h1 : (recalculateAssetPosition [t]).totalCostBasis = -t.totalCost := by
    simp [recalculateAssetPosition_totalCostBasis, sumTotalCost, List.filter_cons, h2, ht]
  rw [h1]
  ring

theorem nodup_ids_split (s t : List Asset) (ed : Asset)
    (h : ((s ++ ed :: t).map Asset.id).Nodup) : ∀ b ∈ s ++ t, b.id ≠ ed.id := by
  intro b hb hbe
  rw [List.map_append, List.map_cons] at h
  rcases List.mem_append.mp hb with hb | hb
  · have hdisj := (List.nodup_append.mp h).2.2
    exact hdisj (List.mem_map_of_mem _ hb) (hbe ▸ List.mem_cons_self _ _)
  · have hnod := (List.nodup_append.mp h).2.1
    have : ed.id ∉ t.map Asset.id := (List.nodup_cons.mp hnod).1
    exact this (hbe ▸ List.mem_map_of_mem _ hb)

/-- C6 amended: `handlePortfolioTransfer` conserves totals when the
transferred quantity does not exhaust the source asset's recomputed
position: the source portfolio's total quantity drops by exactly `q` and
its total cost basis by exactly the FIFO-selected cost `T`, the
destination's totals rise by the same amounts (whether the ticker is new
there or merges into an existing consistent asset), so quantity and cost
basis are conserved across the pair.  (When the transfer does exhaust the
position the source asset is removed with its whole stored cost basis
`asset.totalCostBasis`, which in general differs from the FIFO cost `T`
credited to the destination, so conservation fails — see the
counterexample.) -/
theorem handlePortfolioTransfer_conserves
    (active dest : Portfolio) (preA postA : List Asset) (asset : Asset) (q : ℚ)
    (date : Int) (tg : Option String) (ttid : String) (mkId : Nat → String)
    (ndid : String) (T : ℚ)
    (hT : T = (fifoTransferCopies mkId active.id tg 0 q
      (sortByDateAsc (List.filter isAcquisition asset.transactions))).2)
    (hassets : active.assets = preA ++ asset :: postA)
    (hids : ∀ b ∈ preA ++ postA, b.id ≠ asset.id)
    (hq : asset.quantity = (recalculateAssetPosition asset.transactions).quantity)
    (hc : asset.totalCostBasis =
      (recalculateAssetPosition asset.transactions).totalCostBasis)
    (hpos : ∀ tx ∈ asset.transactions, 0 < tx.quantity)
    (hq0 : 0 ≤ q)
    (hbal : q ≤ asset.quantity)
    (hkeep : (recalculateAssetPosition asset.transactions).quantity ≠ q)
    (hdest : ∀ a ∈ dest.assets,
      a.quantity = (recalculateAssetPosition a.transactions).quantity
      ∧ a.totalCostBasis = (recalculateAssetPosition a.transactions).totalCostBasis)
    (hdids : (dest.assets.map Asset.id).Nodup) :
    qtyTotal (handlePortfolioTransfer active dest asset q date tg ttid mkId ndid).1
      = qtyTotal active - q
    ∧ costTotal (handlePortfolioTransfer active dest asset q date tg ttid mkId ndid).1
      = costTotal active - T
    ∧ qtyTotal (handlePortfolioTransfer active dest asset q date tg ttid mkId ndid).2
      = qtyTotal dest + q
    ∧ costTotal (handlePortfolioTransfer active dest asset q date tg ttid mkId ndid).2
      = costTotal dest + T
    ∧ qtyTotal (handlePortfolioTransfer active dest asset q date tg ttid mkId ndid).1
        + qtyTotal (handlePortfolioTransfer active dest asset q date tg ttid mkId ndid).2
      = qtyTotal active + qtyTotal dest - q + q
    ∧ costTotal (handlePortfolioTransfer active dest asset q date tg ttid mkId ndid).1
        + costTotal (handlePortfolioTransfer active dest asset q date tg ttid mkId ndid).2
      = costTotal active + costTotal dest := by
  subst hT
  -- FIFO copies facts
  have hlots : ∀ tx ∈ sortByDateAsc (List.filter isAcquisition asset.transactions),
      0 < tx.quantity :=
    fun tx htx => hpos tx (List.mem_of_mem_filter (mem_sortByDateAsc htx))
  have hdisp0 : 0 ≤ sumQuantity (asset.transactions.filter isDisposal) :=
    sumQuantity_nonneg _ (fun tx htx => le_of_lt (hpos tx (List.mem_of_mem_filter htx)))
  have hqle : q ≤ sumQuantity (sortByDateAsc (List.filter isAcquisition asset.transactions)) := by
    rw [sumQuantity_sortByDateAsc]
    have hb2 : q ≤ (recalculateAssetPosition asset.transactions).quantity := hq ▸ hbal
    rw [recalculateAssetPosition_quantity] at hb2
    linarith
  have hsums := fifoTransferCopies_sums mkId active.id tg
    (sortByDateAsc (List.filter isAcquisition asset.transactions)) 0 q hlots hq0 hqle
  have hlotacq : ∀ tx ∈ sortByDateAsc (List.filter isAcquisition asset.transactions),
      isAcquisition tx = true :=
    fun tx htx => List.of_mem_filter (mem_sortByDateAsc htx)
  have hcopyacq := fifoTransferCopies_all_acquisitions mkId active.id tg
    (sortByDateAsc (List.filter isAcquisition asset.transactions)) 0 q hlotacq
  have hcopyrecalc := recalc_all_acquisitions _ hcopyacq
  have hcq : (recalculateAssetPosition (fifoTransferCopies mkId active.id tg 0 q
      (sortByDateAsc (List.filter isAcquisition asset.transactions))).1).quantity = q := by
    rw [hcopyrecalc.1, hsums.1]
  have hcc : (recalculateAssetPosition (fifoTransferCopies mkId active.id tg 0 q
      (sortByDateAsc (List.filter isAcquisition asset.transactions))).1).totalCostBasis =
      (fifoTransferCopies mkId active.id tg 0 q
        (sortByDateAsc (List.filter isAcquisition asset.transactions))).2 := by
    rw [hcopyrecalc.2, hsums.2]
  -- the keep-branch condition of the source side is false
  have hcond : ∀ t : Transaction, t.type = TxType.TRANSFER →
      ((recalculateAssetPosition (asset.transactions ++ [t])).quantity == 0) =
      (((recalculateAssetPosition asset.transactions).quantity - t.quantity) == 0) := by
    intro t ht
    rw [recalc_append_disposal_quantity _ _ (by simp [isDisposal, ht])]
  have hne : (((recalculateAssetPosition asset.transactions).quantity - q) == 0) = false := by
    simp only [beq_eq_false_iff_ne, ne_eq, sub_eq_zero]
    exact hkeep
  -- shape of the source side
  have hsrc : ∃ u : Asset,
      (handlePortfolioTransfer active dest asset q date tg ttid mkId ndid).1.assets
        = preA ++ u :: postA
      ∧ u.quantity = (recalculateAssetPosition asset.transactions).quantity - q
      ∧ u.totalCostBasis = (recalculateAssetPosition asset.transactions).totalCostBasis
          - (fifoTransferCopies mkId active.id tg 0 q
              (sortByDateAsc (List.filter isAcquisition asset.transactions))).2 := by
    simp only [handlePortfolioTransfer, hcond, hne, Bool.false_eq_true, if_false]
    rw [hassets, map_ite_id_split _ _ _ hids]
    refine ⟨_, rfl, ?_, ?_⟩
    · rw [recalc_append_disposal_quantity _ _ (by simp [isDisposal])]
    · rw [recalc_append_disposal_cost _ _ (by simp [isDisposal])]
  obtain ⟨u, hu, huq, huc⟩ := hsrc
  have hA : qtyTotal (handlePortfolioTransfer active dest asset q date tg ttid mkId ndid).1
      = qtyTotal active - q := by
    simp only [qtyTotal, hu, hassets, List.map_append, List.map_cons, List.sum_append,
      List.sum_cons, huq]
    rw [hq]
    ring
  have hB : costTotal (handlePortfolioTransfer active dest asset q date tg ttid mkId ndid).1
      = costTotal active - (fifoTransferCopies mkId active.id tg 0 q
          (sortByDateAsc (List.filter isAcquisition asset.transactions))).2 := by
    simp only [costTotal, hu, hassets, List.map_append, List.map_cons, List.sum_append,
      List.sum_cons, huc]
    rw [hc]
    ring
  -- destination side
  have hdest2 :
      qtyTotal (handlePortfolioTransfer active dest asset q date tg ttid mkId ndid).2
        = qtyTotal dest + q
      ∧ costTotal (handlePortfolioTransfer active dest asset q date tg ttid mkId ndid).2
        = costTotal dest + (fifoTransferCopies mkId active.id tg 0 q
            (sortByDateAsc (List.filter isAcquisition asset.transactions))).2 := by
    cases hfind : dest.assets.find? (fun a => a.ticker == asset.ticker) with
    | none =>
      constructor <;>
        simp [qtyTotal, costTotal, handlePortfolioTransfer, hfind, hcond, hne] <;>
        ring
    | some ed =>
      have hedmem : ed ∈ dest.assets := List.mem_of_find?_eq_some hfind
      obtain ⟨s, t, hst⟩ := List.append_of_mem hedmem
      have hsid : ∀ b ∈ s ++ t, b.id ≠ ed.id := nodup_ids_split s t ed (hst ▸ hdids)
      have hed := hdest ed hedmem
      have hshape : ∃ u2 : Asset,
          (handlePortfolioTransfer active dest asset q date tg ttid mkId ndid).2.assets
            = s ++ u2 :: t
          ∧ u2.quantity = (recalculateAssetPosition (ed.transactions ++
              (fifoTransferCopies mkId active.id tg 0 q
                (sortByDateAsc (List.filter isAcquisition asset.transactions))).1)).quantity
          ∧ u2.totalCostBasis = (recalculateAssetPosition (ed.transactions ++
              (fifoTransferCopies mkId active.id tg 0 q
                (sortByDateAsc (List.filter isAcquisition asset.transactions))).1)).totalCostBasis := by
        simp only [handlePortfolioTransfer, hfind, hcond, hne, Bool.false_eq_true, if_false]
        rw [hst, map_ite_id_split _ _ _ hsid]
        exact ⟨_, rfl, rfl, rfl⟩
      obtain ⟨u2, hu2, hu2q, hu2c⟩ := hshape
      rw [recalculateAssetPosition_append_quantity, hcq] at hu2q
      rw [recalculateAssetPosition_append_totalCostBasis, hcc] at hu2c
      constructor
      · simp only [qtyTotal, hu2, hst, List.map_append, List.map_cons, List.sum_append,
          List.sum_cons, hu2q]
        rw [← hed.1]
        ring
      · simp only [costTotal, hu2, hst, List.map_append, List.map_cons, List.sum_append,
          List.sum_cons, hu2c]
        rw [← hed.2]
        ring
  exact ⟨hA, hB, hdest2.1, hdest2.2,
    by rw [hA, hdest2.1]; ring,
    by rw [hB, hdest2.2]; ring⟩

/-- Witness for `handlePortfolioTransfer_conserves`: transferring 4 of the
10-unit single-lot BTC position to an empty destination portfolio conserves
the combined cost basis. -/
theorem handlePortfolioTransfer_conserves_witness :
    costTotal (handlePortfolioTransfer c6WActive c6WDest btcC6W 4 9 none "t6W"
        (fun x => "cp6W") "nd6W").1
      + costTotal (handlePortfolioTransfer c6WActive c6WDest btcC6W 4 9 none "t6W"
        (fun x => "cp6W") "nd6W").2
      = costTotal c6WActive + costTotal c6WDest :=
  (handlePortfolioTransfer_conserves c6WActive c6WDest [] [] btcC6W 4 9 none "t6W"
    (fun x => "cp6W") "nd6W" _
    rfl
    rfl
    (by simp)
    (by simp +decide [btcC6W, baseAsset, lotC6W, baseTx, recalculateAssetPosition_quantity,
      sumQuantity, isAcquisition, isDisposal] <;> norm_num)
    (by simp +decide [btcC6W, baseAsset, lotC6W, baseTx, recalculateAssetPosition_totalCostBasis,
      sumTotalCost, isAcquisition, isDisposal] <;> norm_num)
    (by intro tx htx
        simp [btcC6W, baseAsset, lotC6W, baseTx] at htx
        subst htx
        norm_num [lotC6W, baseTx])
    (by norm_num)
    (by norm_num [btcC6W, baseAsset])
    (by simp +decide [btcC6W, baseAsset, lotC6W, baseTx, recalculateAssetPosition_quantity,
      sumQuantity, isAcquisition, isDisposal] <;> norm_num)
    (by intro a ha; simp [c6WDest] at ha)
    (by simp [c6WDest])).2.2.2.2.2

end CryptoTracker
